import Mathlib

/-!
# ClickUp MCP proxy: token lifecycle and forwarding logic

A shallow embedding of `src/worker.js` (the Cloudflare Worker) and of the
token exchange of `src/oauth-setup.js`, followed by theorems about the
forwarding / refresh / retry logic.

Modelling conventions

* JavaScript values that the code inspects (`data.access_token`, the parsed
  token response) are values of `JsValue`; truthiness, property access and
  template-literal rendering follow ECMAScript.
* An `async` function that awaits outbound `fetch` calls is a value of
  `Prog α`: a finite tree whose nodes are the outbound calls and whose
  branches are indexed by what the awaited `fetch` produced (a response, or a
  thrown error).  `Prog.run` executes such a tree against a network oracle and
  records the outbound calls in order.
* A handler produces an `Outcome`: the response it returns, or the rejection
  of its promise.  `new Response` throws for a status outside 200..599 and
  for a body that is not empty given together with a null-body status.
* An upstream body is a list of bytes; `text()` decodes it as UTF-8 (invalid
  sequences become U+FFFD, a leading byte order mark is dropped) and a string
  body is sent as its UTF-8 encoding.
* Concurrent invocations of the handler are a `Pool`: each invocation is an
  `Invocation` that issues its outbound calls and receives their answers, and
  an execution is a list of `Event`s, any interleaving of those steps.
* `console.log` / `console.error` are not observable by the caller and are
  left out.
-/

namespace Js

/-- What `JSON.parse` / a property read can produce.  A number is represented
by the text `String(n)` gives for it, so no floating point is needed. -/
inductive JsValue where
  | undefined
  | null
  | bool (b : Bool)
  | num (shown : String)
  | str (s : String)
  | arr (items : List JsValue)
  | obj (props : List (String × JsValue))

namespace JsValue

/-- ECMAScript `ToBoolean`. A number is falsy exactly when it is `0` (or `-0`,
which `String` also shows as `0`); `NaN` cannot come out of `JSON.parse`. -/
def truthy : JsValue → Bool
  | undefined => false
  | null => false
  | bool b => b
  | num shown => shown != "0"
  | str s => s != ""
  | arr _ => true
  | obj _ => true

mutual
/-- ECMAScript `ToString`, as applied by a template literal `${v}`. -/
def toText : JsValue → String
  | undefined => "undefined"
  | null => "null"
  | bool true => "true"
  | bool false => "false"
  | num shown => shown
  | str s => s
  | arr items => joinItems items
  | obj _ => "[object Object]"
/-- The text of `Array.prototype.join(",")`: `null` and `undefined` elements
render as the empty string. -/
def joinItems : List JsValue → String
  | [] => ""
  | [x] => itemText x
  | x :: y :: rest => itemText x ++ "," ++ joinItems (y :: rest)
/-- One element of an array being joined. -/
def itemText : JsValue → String
  | undefined => ""
  | null => ""
  | bool true => "true"
  | bool false => "false"
  | num shown => shown
  | str s => s
  | arr items => joinItems items
  | obj _ => "[object Object]"
end

/-- Property read `v.name`.  Reading a property of `null` or `undefined`
throws a `TypeError`; a missing property reads as `undefined`.  (The only
names the code reads are `access_token` and `refresh_token`, which no string,
number, boolean or array has.) -/
def getProp (v : JsValue) (name : String) : Except String JsValue :=
  match v with
  | undefined => .error ("Cannot read properties of undefined (reading " ++ name ++ ")")
  | null => .error ("Cannot read properties of null (reading " ++ name ++ ")")
  | obj props =>
    match props.lookup name with
    | some x => .ok x
    | none => .ok undefined
  | _ => .ok undefined

/-- A configuration value (`env.X`), which is a string or `undefined`. -/
def ofOption : Option String → JsValue
  | some s => str s
  | none => undefined

end JsValue

/-- Truthiness of a value that is a string or absent (`undefined` / `null`):
the present string when it is non-empty. -/
def truthyString : Option String → Option String
  | some s => if s = "" then none else some s
  | none => none

/-- The `a || b` idiom on a possibly absent string with a string default. -/
def orElse (a : Option String) (b : String) : String :=
  match truthyString a with
  | some s => s
  | none => b

/-- The replacement character U+FFFD. -/
def replacementChar : Char := Char.ofNat 0xFFFD

/-- The byte order mark U+FEFF. -/
def byteOrderMark : Char := Char.ofNat 0xFEFF

/-- The UTF-8 encoding of one scalar value; a byte is a natural number below
256. -/
def utf8EncodeChar (c : Char) : List Nat :=
  if c.toNat < 0x80 then [c.toNat]
  else if c.toNat < 0x800 then [0xC0 + c.toNat / 64, 0x80 + c.toNat % 64]
  else if c.toNat < 0x10000 then
    [0xE0 + c.toNat / 4096, 0x80 + c.toNat / 64 % 64, 0x80 + c.toNat % 64]
  else
    [0xF0 + c.toNat / 262144, 0x80 + c.toNat / 4096 % 64, 0x80 + c.toNat / 64 % 64,
      0x80 + c.toNat % 64]

/-- The UTF-8 encoding of a sequence of scalar values. -/
def utf8EncodeChars : List Char → List Nat
  | [] => []
  | c :: rest => utf8EncodeChar c ++ utf8EncodeChars rest

/-- The encoding "UTF-8 encode" of a string. -/
def utf8Encode (text : String) : List Nat :=
  utf8EncodeChars text.data

/-- The state of the UTF-8 decoder of the Encoding standard. -/
structure Utf8State where
  codePoint : Nat
  bytesSeen : Nat
  bytesNeeded : Nat
  lower : Nat
  upper : Nat

/-- The decoder state between two scalar values. -/
def Utf8State.initial : Utf8State :=
  { codePoint := 0, bytesSeen := 0, bytesNeeded := 0, lower := 0x80, upper := 0xBF }

/-- What the decoder does with a byte read while no sequence is open. -/
inductive Utf8Lead where
  | emit (c : Char)
  | more (s : Utf8State)
  | invalid

/-- The decoder on a byte read while no sequence is open. -/
def utf8Lead (b : Nat) : Utf8Lead :=
  if b ≤ 0x7F then .emit (Char.ofNat b)
  else if 0xC2 ≤ b ∧ b ≤ 0xDF then
    .more { codePoint := b % 32, bytesSeen := 0, bytesNeeded := 1, lower := 0x80, upper := 0xBF }
  else if 0xE0 ≤ b ∧ b ≤ 0xEF then
    .more { codePoint := b % 16, bytesSeen := 0, bytesNeeded := 2,
            lower := if b = 0xE0 then 0xA0 else 0x80,
            upper := if b = 0xED then 0x9F else 0xBF }
  else if 0xF0 ≤ b ∧ b ≤ 0xF4 then
    .more { codePoint := b % 8, bytesSeen := 0, bytesNeeded := 3,
            lower := if b = 0xF0 then 0x90 else 0x80,
            upper := if b = 0xF4 then 0x8F else 0xBF }
  else .invalid

/-- The UTF-8 decoder of the Encoding standard, with replacement for errors:
a byte that cannot continue the open sequence ends it with U+FFFD and is read
again as the start of a sequence; input that ends inside a sequence ends with
U+FFFD. -/
def utf8DecodeFrom : Utf8State → List Nat → List Char
  | s, [] => if s.bytesNeeded = 0 then [] else [replacementChar]
  | s, b :: rest =>
    if s.bytesNeeded ≠ 0 ∧ s.lower ≤ b ∧ b ≤ s.upper then
      if s.bytesSeen + 1 = s.bytesNeeded then
        Char.ofNat (s.codePoint * 64 + b % 64) :: utf8DecodeFrom Utf8State.initial rest
      else
        utf8DecodeFrom
          { codePoint := s.codePoint * 64 + b % 64, bytesSeen := s.bytesSeen + 1,
            bytesNeeded := s.bytesNeeded, lower := 0x80, upper := 0xBF } rest
    else
      (if s.bytesNeeded = 0 then [] else [replacementChar]) ++
        match utf8Lead b with
        | .emit c => c :: utf8DecodeFrom Utf8State.initial rest
        | .more s1 => utf8DecodeFrom s1 rest
        | .invalid => replacementChar :: utf8DecodeFrom Utf8State.initial rest

/-- The bytes without a leading byte order mark `EF BB BF`. -/
def dropBom : List Nat → List Nat
  | b1 :: b2 :: b3 :: rest =>
    if b1 = 0xEF ∧ b2 = 0xBB ∧ b3 = 0xBF then rest else b1 :: b2 :: b3 :: rest
  | bytes => bytes

/-- The algorithm "UTF-8 decode" of the Encoding standard, which `text()`
applies to the body: a leading byte order mark is dropped and the rest is
decoded with replacement. -/
def utf8Decode (bytes : List Nat) : String :=
  String.mk (utf8DecodeFrom Utf8State.initial (dropBom bytes))

/-- The operator-facing HTML pages.  Each page is a fixed template; it is
represented by the values interpolated into it. -/
inductive Page where
  /-- Homepage, branch `!hasTokens`: shows the redirect URL to register. -/
  | homeSetup (redirectUrl : String)
  /-- Homepage, branch `hasTokens`: shows the worker URL. -/
  | homeActive (workerUrl : String)
  /-- The page of `handleOAuthCallback` titled "OAuth Success": the rendered
  `tokens.access_token`, and the rendered `tokens.refresh_token` when truthy. -/
  | oauthSuccess (accessToken : String) (refreshToken : Option String)

/-- A request or response body. `raw text` is a string body, which goes on
the wire as the UTF-8 encoding of `text`; `json props` stands for
`JSON.stringify` of the object literal with these properties. -/
inductive Body where
  | empty
  | raw (text : String)
  | json (props : List (String × JsValue))
  | html (page : Page)

/-- Whether the body is `null` or has zero length. -/
def Body.isEmpty : Body → Bool
  | .empty => true
  | .raw text => text == ""
  | _ => false

/-- The bytes of a `null` or string body on the wire; the serialisations of
the JSON objects and of the pages are not spelled out. -/
def Body.encoded : Body → Option (List Nat)
  | .empty => some []
  | .raw text => some (utf8Encode text)
  | _ => none

/-- An outbound `fetch(url, init)` call. -/
structure Call where
  url : String
  method : String
  headers : List (String × String)
  body : Body

/-- What an outbound `fetch` resolves to: `contentType` is
`headers.get(Content-Type)`, `bytes` is the body as received and `json` is
what `json()` resolves to (an error when it rejects). -/
structure UpstreamResponse where
  status : Nat
  statusText : String
  contentType : Option String
  bytes : List Nat
  json : Except String JsValue

/-- What `text()` resolves to: the body, decoded as UTF-8. -/
def UpstreamResponse.text (r : UpstreamResponse) : String :=
  utf8Decode r.bytes

/-- The `ok` attribute: status in 200..299. -/
def UpstreamResponse.ok (r : UpstreamResponse) : Bool :=
  200 ≤ r.status && r.status ≤ 299

/-- The result of awaiting an outbound `fetch`: a response, or a thrown
error, given by its `message`: a network failure, or the platform refusing
the call before anything is sent, as it does for a `GET` or `HEAD` call that
is given a body. -/
abbrev Answer := Except String UpstreamResponse

/-- A response built by the worker. -/
structure Response where
  status : Nat
  statusText : String
  headers : List (String × String)
  body : Body

/-- The second argument of `new Response`. -/
structure ResponseInit where
  status : Nat := 200
  statusText : String := ""
  headers : List (String × String) := []

/-- The statuses for which a response may not have a body (Fetch standard). -/
def nullBodyStatus (status : Nat) : Bool :=
  status == 101 || status == 204 || status == 205 || status == 304

/-- The constructor `new Response(body, init)` as the Workers runtime has it:
it throws a `RangeError` when the status is outside 200..599, and a
`TypeError` when a null-body status comes with a body that is not empty (a
zero-length body is accepted with a null-body status).  The status text is
the one `init` gives, and is left empty when `init` gives none: the default
text a runtime reports for a status is not spelled out. -/
def newResponse (body : Body) (init : ResponseInit) : Except String Response :=
  if init.status < 200 ∨ 599 < init.status then
    .error "Responses may only be constructed with status codes in the range 200 to 599, inclusive."
  else if nullBodyStatus init.status && !body.isEmpty then
    .error "Response with null body status (101, 204, 205, or 304) cannot have a body."
  else
    .ok { status := init.status, statusText := init.statusText,
          headers := init.headers, body := body }

/-- What a handler produces: a response, or a rejection (an uncaught
exception), given by its `message`. -/
abbrev Outcome := Except String Response

/-- An asynchronous computation that awaits outbound calls. -/
inductive Prog (α : Type) where
  | done (a : α)
  | call (c : Call) (k : Answer → Prog α)

namespace Prog

/-- Sequencing: `const x = await p; ...`. -/
def bind {α β : Type} : Prog α → (α → Prog β) → Prog β
  | done a, f => f a
  | call c k, f => call c (fun a => bind (k a) f)

end Prog

/-- The network: what the awaited `fetch` produces for a call, which may
depend on the calls made before it. -/
abbrev Net := List Call → Call → Answer

namespace Prog

/-- Run a computation against a network, starting from the calls already
made; returns the result and the calls made, in order. -/
def runFrom {α : Type} : Prog α → Net → List Call → α × List Call
  | done a, _, made => (a, made)
  | call c k, net, made => runFrom (k (net made c)) net (made ++ [c])

/-- Run a computation from an empty history. -/
def run {α : Type} (p : Prog α) (net : Net) : α × List Call :=
  runFrom p net []

end Prog

/-- The functions of the URL standard that the worker uses. -/
structure Platform where
  /-- The text of `new URL(path, base).toString()`, or `none` when the
  constructor throws because `base` is not a valid URL. -/
  resolveUrl : String → String → Option String
  /-- The serialisation of one query value by `searchParams.set`. -/
  formEncode : String → String

end Js

namespace Worker
open Js

/-- The constant `CLICKUP_MCP_URL`. -/
def CLICKUP_MCP_URL : String := "https://mcp.clickup.com/mcp"
/-- The constant `CLICKUP_TOKEN_URL`. -/
def CLICKUP_TOKEN_URL : String := "https://api.clickup.com/api/v2/oauth/token"
/-- The constant `CLICKUP_AUTH_URL`. -/
def CLICKUP_AUTH_URL : String := "https://app.clickup.com/api"

/-- The bindings and secrets the worker reads from `env`; each is a string or
absent.  The worker never writes to `env`. -/
structure Env where
  MCP_API_KEY : Option String
  CLICKUP_ACCESS_TOKEN : Option String
  CLICKUP_REFRESH_TOKEN : Option String
  CLICKUP_CLIENT_ID : Option String
  CLICKUP_CLIENT_SECRET : Option String
  WORKER_URL : Option String

/-- The inbound request, through the accessors the worker uses:
`pathname`, `origin`, `code` and `error` are read off `new URL(request.url)`
(`code` and `error` being `searchParams.get`), `apiKey` is
`headers.get(X-API-Key)` and `body` is what `request.text()` resolves to
(reading the inbound body is taken to succeed). -/
structure Request where
  method : String
  pathname : String
  origin : String
  code : Option String
  error : Option String
  apiKey : Option String
  body : String

/-- The object `corsHeaders` of `fetch`. -/
def corsHeaders : List (String × String) :=
  [("Access-Control-Allow-Origin", "*"),
   ("Access-Control-Allow-Methods", "GET, POST, OPTIONS"),
   ("Access-Control-Allow-Headers", "Content-Type, Authorization, X-API-Key")]

/-- The function `jsonResponse(data, options)`: the `Content-Type` entry comes
first and the entries of `options.headers` are spread after it (no header the
worker passes is named `Content-Type`, so none overrides it). -/
def jsonResponse (data : List (String × JsValue)) (options : ResponseInit) : Outcome :=
  newResponse (Body.json data)
    { options with headers := ("Content-Type", "application/json") :: options.headers }

/-- The function `proxyResponse(clickupResponse, corsHeaders)`: the upstream
status, status text and body text, `Content-Type` taken from the upstream
response or else `application/json`, and the entries of `corsHeaders` spread
after it.  The result is an error when `new Response` throws. -/
def proxyResponse (clickupResponse : UpstreamResponse) (cors : List (String × String)) : Outcome :=
  newResponse (Body.raw clickupResponse.text)
    { status := clickupResponse.status,
      statusText := clickupResponse.statusText,
      headers := ("Content-Type", orElse clickupResponse.contentType "application/json") :: cors }

/-- The outbound call that refreshes the token. -/
def refreshCall (env : Env) : Call :=
  { url := CLICKUP_TOKEN_URL,
    method := "POST",
    headers := [("Content-Type", "application/json")],
    body := Body.json
      [("client_id", JsValue.ofOption env.CLICKUP_CLIENT_ID),
       ("client_secret", JsValue.ofOption env.CLICKUP_CLIENT_SECRET),
       ("grant_type", JsValue.str "refresh_token"),
       ("refresh_token", JsValue.ofOption env.CLICKUP_REFRESH_TOKEN)] }

/-- The function `refreshAccessToken(env)`: `null` when the call throws, when
the response is not `ok`, or when reading the JSON throws; otherwise
`data.access_token`. -/
def refreshAccessToken (env : Env) : Prog JsValue :=
  Prog.call (refreshCall env) fun answer =>
    match answer with
    | .error _ => Prog.done JsValue.null
    | .ok response =>
      if !response.ok then Prog.done JsValue.null
      else
        match response.json with
        | .error _ => Prog.done JsValue.null
        | .ok data =>
          match data.getProp "access_token" with
          | .error _ => Prog.done JsValue.null
          | .ok token => Prog.done token

/-- What `refreshAccessToken` returns once the awaited token call has produced
`answer`: the part of the function after the `await fetch`. -/
def refreshedToken (answer : Answer) : JsValue :=
  match answer with
  | .error _ => JsValue.null
  | .ok response =>
    if !response.ok then JsValue.null
    else
      match response.json with
      | .error _ => JsValue.null
      | .ok data =>
        match data.getProp "access_token" with
        | .error _ => JsValue.null
        | .ok token => token

/-- The function `handleHomepage(env)`.  In the `hasTokens` branch the template
reads `env.WORKER_URL || request.url`, and `request` is not in scope of the
function: with no `WORKER_URL` that is a `ReferenceError`. -/
def handleHomepage (P : Platform) (env : Env) : Outcome :=
  let hasTokens :=
    (truthyString env.CLICKUP_ACCESS_TOKEN).isSome && (truthyString env.CLICKUP_CLIENT_ID).isSome
  if hasTokens then
    match truthyString env.WORKER_URL with
    | some workerUrl =>
      newResponse (Body.html (Page.homeActive workerUrl)) { headers := [("Content-Type", "text/html")] }
    | none => .error "request is not defined"
  else
    match P.resolveUrl "/oauth/callback" (orElse env.WORKER_URL "https://your-worker.workers.dev") with
    | some redirectUrl =>
      newResponse (Body.html (Page.homeSetup redirectUrl)) { headers := [("Content-Type", "text/html")] }
    | none => .error "Invalid URL"

/-- The function `handleOAuthStart(request, env)`. -/
def handleOAuthStart (P : Platform) (request : Request) (env : Env) : Outcome :=
  match truthyString env.CLICKUP_CLIENT_ID with
  | none =>
    newResponse
      (Body.raw "❌ CLICKUP_CLIENT_ID non configurato. Esegui: npx wrangler secret put CLICKUP_CLIENT_ID")
      { status := 400, headers := [("Content-Type", "text/plain")] }
  | some clientId =>
    let redirectUri := request.origin ++ "/oauth/callback"
    let authUrl := CLICKUP_AUTH_URL ++ "?client_id=" ++ P.formEncode clientId
      ++ "&redirect_uri=" ++ P.formEncode redirectUri
    newResponse Body.empty { status := 302, headers := [("Location", authUrl)] }

/-- The outbound call of `handleOAuthCallback` that exchanges the code. -/
def exchangeCall (env : Env) (code : String) : Call :=
  { url := CLICKUP_TOKEN_URL,
    method := "POST",
    headers := [("Content-Type", "application/json")],
    body := Body.json
      [("client_id", JsValue.ofOption env.CLICKUP_CLIENT_ID),
       ("client_secret", JsValue.ofOption env.CLICKUP_CLIENT_SECRET),
       ("code", JsValue.str code)] }

/-- The `catch` block of `handleOAuthCallback`. -/
def callbackError (message : String) : Outcome :=
  newResponse (Body.raw ("❌ Errore: " ++ message))
    { status := 500, headers := [("Content-Type", "text/plain")] }

/-- The page built from the parsed token response: both reads of
`tokens.access_token` / `tokens.refresh_token` throw when `tokens` is `null`. -/
def successPage (tokens : JsValue) : Except String Page :=
  match tokens.getProp "access_token", tokens.getProp "refresh_token" with
  | .ok access, .ok refresh =>
    .ok (Page.oauthSuccess access.toText (if refresh.truthy then some refresh.toText else none))
  | .error message, _ => .error message
  | _, .error message => .error message

/-- What `handleOAuthCallback` returns once the awaited exchange call has
produced `answer`: the part of the `try` block after the `await fetch`, and
the `catch` block. -/
def exchangeOutcome (answer : Answer) : Outcome :=
  match answer with
  | .error message => callbackError message
  | .ok tokenResponse =>
    if !tokenResponse.ok then
      newResponse (Body.raw ("❌ Token exchange failed: " ++ tokenResponse.text))
        { status := 500, headers := [("Content-Type", "text/plain")] }
    else
      match tokenResponse.json with
      | .error message => callbackError message
      | .ok tokens =>
        match successPage tokens with
        | .error message => callbackError message
        | .ok page =>
          newResponse (Body.html page) { headers := [("Content-Type", "text/html")] }

/-- The function `handleOAuthCallback(request, env)`. -/
def handleOAuthCallback (request : Request) (env : Env) : Prog Outcome :=
  match truthyString request.error with
  | some error =>
    Prog.done (newResponse (Body.raw ("❌ Errore OAuth: " ++ error))
      { status := 400, headers := [("Content-Type", "text/plain")] })
  | none =>
    match truthyString request.code with
    | none =>
      Prog.done (newResponse (Body.raw "❌ Authorization code mancante")
        { status := 400, headers := [("Content-Type", "text/plain")] })
    | some code =>
      Prog.call (exchangeCall env code) fun answer =>
        match answer with
        | .error message => Prog.done (callbackError message)
        | .ok tokenResponse =>
          if !tokenResponse.ok then
            Prog.done (newResponse (Body.raw ("❌ Token exchange failed: " ++ tokenResponse.text))
              { status := 500, headers := [("Content-Type", "text/plain")] })
          else
            match tokenResponse.json with
            | .error message => Prog.done (callbackError message)
            | .ok tokens =>
              match successPage tokens with
              | .error message => Prog.done (callbackError message)
              | .ok page =>
                Prog.done (newResponse (Body.html page) { headers := [("Content-Type", "text/html")] })

/-- The outbound call that forwards the request to the MCP upstream with a
bearer token.  The inbound body text is passed as the body whatever the
method is. -/
def mcpCall (request : Request) (token : String) : Call :=
  { url := CLICKUP_MCP_URL,
    method := request.method,
    headers := [("Content-Type", "application/json"), ("Authorization", "Bearer " ++ token)],
    body := Body.raw request.body }

/-- The `catch` block of `fetch`: the 500 response with the error message. -/
def internalError (message : String) : Outcome :=
  jsonResponse
    [("error", JsValue.str "Internal server error"), ("message", JsValue.str message)]
    { status := 500, headers := corsHeaders }

/-- A `return f(...)` of a synchronous function inside the `try` block of
`fetch`: an exception thrown by `f` is caught. -/
def caught : Outcome → Outcome
  | .ok response => .ok response
  | .error message => internalError message

/-- The handler `fetch(request, env)`.  Inside the `try` block an awaited
`fetch` that throws goes to the `catch` block; `return proxyResponse(...)`
returns the promise without awaiting it, so a rejection of `proxyResponse`
is not caught and rejects the handler. -/
def fetch (P : Platform) (request : Request) (env : Env) : Prog Outcome :=
  if request.method = "OPTIONS" then
    Prog.done (newResponse Body.empty { headers := corsHeaders })
  else if request.pathname = "/oauth/start" ∧ request.method = "GET" then
    Prog.done (handleOAuthStart P request env)
  else if request.pathname = "/oauth/callback" ∧ request.method = "GET" then
    handleOAuthCallback request env
  else if request.pathname = "/" ∧ request.method = "GET" then
    Prog.done (handleHomepage P env)
  else
    if (truthyString request.apiKey).isNone ∨ request.apiKey ≠ env.MCP_API_KEY then
      Prog.done (caught (jsonResponse
        [("error", JsValue.str "Unauthorized: Invalid or missing API key")]
        { status := 401, headers := corsHeaders }))
    else
      match truthyString env.CLICKUP_ACCESS_TOKEN with
      | none =>
        Prog.done (caught (jsonResponse
          [("error", JsValue.str "OAuth not configured"),
           ("message", JsValue.str "Visit /oauth/start to configure OAuth tokens")]
          { status := 503, headers := corsHeaders }))
      | some accessToken =>
        Prog.call (mcpCall request accessToken) fun answer =>
          match answer with
          | .error message => Prog.done (internalError message)
          | .ok clickupResponse =>
            if clickupResponse.status = 401 ∧ (truthyString env.CLICKUP_REFRESH_TOKEN).isSome then
              (refreshAccessToken env).bind fun newToken =>
                if newToken.truthy then
                  Prog.call (mcpCall request newToken.toText) fun retryAnswer =>
                    match retryAnswer with
                    | .error message => Prog.done (internalError message)
                    | .ok retryResponse => Prog.done (proxyResponse retryResponse corsHeaders)
                else Prog.done (proxyResponse clickupResponse corsHeaders)
            else Prog.done (proxyResponse clickupResponse corsHeaders)

/-- The request reaches the proxy branch of `fetch`: it is not a preflight and
not one of the three `GET` pages. -/
def proxyRouted (request : Request) : Prop :=
  request.method ≠ "OPTIONS" ∧
  ¬ (request.pathname = "/oauth/start" ∧ request.method = "GET") ∧
  ¬ (request.pathname = "/oauth/callback" ∧ request.method = "GET") ∧
  ¬ (request.pathname = "/" ∧ request.method = "GET")

instance (request : Request) : Decidable (proxyRouted request) := by
  unfold proxyRouted; infer_instance

/-- The request carries the configured gateway key: a non-empty `X-API-Key`
equal to `env.MCP_API_KEY`. -/
def hasValidKey (request : Request) (env : Env) : Prop :=
  (truthyString request.apiKey).isSome ∧ request.apiKey = env.MCP_API_KEY

instance (request : Request) (env : Env) : Decidable (hasValidKey request env) := by
  unfold hasValidKey; infer_instance

/-- The MCP upstream calls among the calls made. -/
def mcpCalls (made : List Call) : List Call :=
  made.filter fun c => c.url == CLICKUP_MCP_URL

/-- The token endpoint calls among the calls made. -/
def tokenCalls (made : List Call) : List Call :=
  made.filter fun c => c.url == CLICKUP_TOKEN_URL

/-- The value of a response header, by exact name. -/
def header (response : Response) (name : String) : Option String :=
  response.headers.lookup name

/-- The 401 response of the key check. -/
def unauthorizedResponse : Response :=
  { status := 401, statusText := "",
    headers := ("Content-Type", "application/json") :: corsHeaders,
    body := Body.json [("error", JsValue.str "Unauthorized: Invalid or missing API key")] }

/-- The 503 response given when no access token is configured. -/
def notConfiguredResponse : Response :=
  { status := 503, statusText := "",
    headers := ("Content-Type", "application/json") :: corsHeaders,
    body := Body.json
      [("error", JsValue.str "OAuth not configured"),
       ("message", JsValue.str "Visit /oauth/start to configure OAuth tokens")] }

/-- The response `proxyResponse` builds from an upstream response when the
constructor accepts it. -/
def forwarded (r : UpstreamResponse) : Response :=
  { status := r.status, statusText := r.statusText,
    headers := ("Content-Type", orElse r.contentType "application/json") :: corsHeaders,
    body := Body.raw r.text }

/-- The upstream responses from which `new Response` builds a response: the
status is in 200..599, and a null-body status comes with an empty body (as it
does for every response `fetch` resolves to). -/
def forwardable (r : UpstreamResponse) : Prop :=
  200 ≤ r.status ∧ r.status ≤ 599 ∧ (nullBodyStatus r.status = true → r.text = "")

instance (r : UpstreamResponse) : Decidable (forwardable r) := by
  unfold forwardable; infer_instance

/-- The refresh succeeded with `newToken`: the token endpoint answered `answer`,
a response with an `ok` status whose JSON body has the truthy `access_token`
value `newToken`. -/
def refreshSucceeded (answer : Answer) (newToken : JsValue) : Prop :=
  ∃ response data, answer = .ok response ∧ response.ok = true ∧
    response.json = .ok data ∧ data.getProp "access_token" = .ok newToken ∧
    newToken.truthy = true

/-- Successive independent invocations of the worker on one network.  Every
invocation is given the same `env`: no statement of the worker writes a
binding (the `TOKEN_STORE.put` of `refreshAccessToken` is commented out), so
what an invocation read is what the next one reads. -/
def serve (P : Platform) (env : Env) : List Request → Net → List Call → List Outcome × List Call
  | [], _, made => ([], made)
  | request :: rest, net, made =>
    let first := (fetch P request env).runFrom net made
    let others := serve P env rest net first.2
    (first.1 :: others.1, others.2)

/-- One invocation of the handler while it runs concurrently with others:
either it is about to continue with `p`, or it has issued the call `c` and
awaits the answer, to continue with `k`. -/
inductive Invocation where
  | ready (p : Prog Outcome)
  | awaiting (c : Call) (k : Answer → Prog Outcome)

/-- The invocation has returned. -/
def Invocation.finished : Invocation → Bool
  | .ready (.done _) => true
  | _ => false

/-- What happens to one invocation: `none` is "it issues its next outbound
call", `some answer` is "the call it awaits completes with `answer`". -/
abbrev LocalEvent := Option Answer

/-- One step of one invocation; the call issued, if any, is returned. -/
def Invocation.step : Invocation → LocalEvent → Option (Invocation × List Call)
  | .ready (.call c k), none => some (.awaiting c k, [c])
  | .awaiting _ k, some answer => some (.ready (k answer), [])
  | _, _ => none

/-- The steps of one invocation, with the calls it issued in order. -/
def Invocation.exec : Invocation → List LocalEvent → Option (Invocation × List Call)
  | t, [] => some (t, [])
  | t, e :: rest =>
    match t.step e with
    | none => none
    | some (t1, issued) =>
      match Invocation.exec t1 rest with
      | none => none
      | some (t2, later) => some (t2, issued ++ later)

/-- An event of a concurrent execution: invocation `i` issues its next
outbound call, or the call invocation `i` awaits completes with `answer`. -/
inductive Event where
  | issue (i : Nat)
  | deliver (i : Nat) (answer : Answer)

/-- The invocation an event belongs to. -/
def Event.owner : Event → Nat
  | .issue i => i
  | .deliver i _ => i

/-- The event as seen by its invocation. -/
def Event.toLocal : Event → LocalEvent
  | .issue _ => none
  | .deliver _ answer => some answer

/-- The invocations in progress and the outbound calls issued so far, in
order, each with the index of the invocation that issued it.  The invocations
share nothing else: the worker keeps no state outside `fetch`. -/
structure Pool where
  tasks : List Invocation
  sent : List (Nat × Call)

/-- One step of the concurrent execution: the invocation the event belongs to
takes its step; an event that does not fit its state is not possible. -/
def Pool.step (pool : Pool) (e : Event) : Option Pool :=
  match pool.tasks[e.owner]? with
  | none => none
  | some t =>
    match t.step e.toLocal with
    | none => none
    | some (t1, issued) =>
      some { tasks := pool.tasks.set e.owner t1,
             sent := pool.sent ++ issued.map fun c => (e.owner, c) }

/-- A concurrent execution: a sequence of events, in the order they happen. -/
def Pool.exec : Pool → List Event → Option Pool
  | pool, [] => some pool
  | pool, e :: rest =>
    match pool.step e with
    | none => none
    | some next => Pool.exec next rest

/-- The pool in which `fetch` has been invoked on each of the requests, with
the same `env`, and no call has been issued yet. -/
def startPool (P : Platform) (env : Env) (requests : List Request) : Pool :=
  { tasks := requests.map fun request => Invocation.ready (fetch P request env), sent := [] }

/-- The events of invocation `i`, as seen by it. -/
def eventsOf (i : Nat) (events : List Event) : List LocalEvent :=
  (events.filter fun e => e.owner == i).map Event.toLocal

/-- The answers delivered to invocation `i`, in order. -/
def answersTo (i : Nat) (events : List Event) : List Answer :=
  (eventsOf i events).filterMap id

/-- The calls issued by invocation `i`, in order. -/
def callsOf (i : Nat) (sent : List (Nat × Call)) : List Call :=
  (sent.filter fun entry => entry.1 == i).map Prod.snd

/-- All the calls issued, in order. -/
def allCalls (sent : List (Nat × Call)) : List Call :=
  sent.map Prod.snd

/-- The response to a preflight request. -/
def preflightResponse : Response :=
  { status := 200, statusText := "", headers := corsHeaders, body := Body.empty }

/-- The response carries the three CORS headers of `corsHeaders`. -/
def hasCors (response : Response) : Prop :=
  header response "Access-Control-Allow-Origin" = some "*" ∧
  header response "Access-Control-Allow-Methods" = some "GET, POST, OPTIONS" ∧
  header response "Access-Control-Allow-Headers" = some "Content-Type, Authorization, X-API-Key"

/-- The response carries none of the three CORS headers. -/
def lacksCors (response : Response) : Prop :=
  header response "Access-Control-Allow-Origin" = none ∧
  header response "Access-Control-Allow-Methods" = none ∧
  header response "Access-Control-Allow-Headers" = none

/-- A platform for examples: URLs resolve by concatenation and query values
are left as they are. -/
def plainPlatform : Platform :=
  { resolveUrl := fun path base => some (base ++ path), formEncode := fun s => s }

/-- A network for examples that answers every call with a fixed response. -/
def constNet (r : UpstreamResponse) : Net := fun _ _ => .ok r

/-- A network for examples that answers the calls in order from a list. -/
def scriptedNet (answers : List Answer) : Net :=
  fun made _ => answers.getD made.length (.error "connection refused")

/-- A token endpoint response `200` whose JSON body has `access_token`
"fresh-token". -/
def refreshedResponse : UpstreamResponse :=
  { status := 200, statusText := "OK", contentType := some "application/json",
    bytes := utf8Encode "\x7b\"access_token\":\"fresh-token\"\x7d",
    json := .ok (JsValue.obj [("access_token", JsValue.str "fresh-token")]) }

/-- An upstream response `200` that carries no `Content-Type` header and
whose body is the two bytes `FF 41`, which is not UTF-8. -/
def bareResponse : UpstreamResponse :=
  { status := 200, statusText := "OK", contentType := none, bytes := [0xFF, 0x41],
    json := .error "Unexpected token in JSON at position 0" }

/-- A token endpoint response `400`. -/
def rejectedRefreshResponse : UpstreamResponse :=
  { status := 400, statusText := "Bad Request", contentType := some "application/json",
    bytes := utf8Encode "\x7b\"err\":\"invalid refresh token\"\x7d",
    json := .ok (JsValue.obj [("err", JsValue.str "invalid refresh token")]) }

/-- An upstream response `204` with an empty body. -/
def noContentResponse : UpstreamResponse :=
  { status := 204, statusText := "No Content", contentType := none, bytes := [],
    json := .error "Unexpected end of JSON input" }

/-- A token endpoint response `200` whose JSON body is the empty object. -/
def emptyTokenResponse : UpstreamResponse :=
  { status := 200, statusText := "OK", contentType := some "application/json",
    bytes := utf8Encode "\x7b\x7d", json := .ok (JsValue.obj []) }

/-- An example callback request carrying an authorization code. -/
def callbackRequest : Request :=
  { method := "GET", pathname := "/oauth/callback", origin := "https://proxy.example",
    code := some "auth-code", error := none, apiKey := none, body := "" }

/-- An example callback request carrying `error=access_denied`. -/
def deniedCallbackRequest : Request :=
  { method := "GET", pathname := "/oauth/callback", origin := "https://proxy.example",
    code := none, error := some "access_denied", apiKey := none, body := "" }

/-- An example preflight request, without any key. -/
def preflightRequest : Request :=
  { method := "OPTIONS", pathname := "/mcp-upstream-path", origin := "https://proxy.example",
    code := none, error := none, apiKey := none, body := "" }

/-- An example configuration: a gateway key, a stored access token and a
refresh token. -/
def sampleEnv : Env :=
  { MCP_API_KEY := some "correct-key",
    CLICKUP_ACCESS_TOKEN := some "stale-token",
    CLICKUP_REFRESH_TOKEN := some "refresh-1",
    CLICKUP_CLIENT_ID := some "client",
    CLICKUP_CLIENT_SECRET := some "secret",
    WORKER_URL := none }

/-- The example configuration without any stored token. -/
def envWithoutTokens : Env :=
  { sampleEnv with CLICKUP_ACCESS_TOKEN := none, CLICKUP_REFRESH_TOKEN := none }

/-- An example proxy request carrying the configured key. -/
def sampleRequest : Request :=
  { method := "POST", pathname := "/mcp-upstream-path", origin := "https://proxy.example",
    code := none, error := none, apiKey := some "correct-key",
    body := "\x7b\"method\":\"ping\"\x7d" }

/-- The example proxy request with a wrong key. -/
def wrongKeyRequest : Request :=
  { sampleRequest with apiKey := some "wrong-key" }

/-- An upstream response `200` with a JSON body and content type. -/
def okResponse : UpstreamResponse :=
  { status := 200, statusText := "OK", contentType := some "application/json",
    bytes := utf8Encode "\x7b\"result\":\"ok\"\x7d",
    json := .ok (JsValue.obj [("result", JsValue.str "ok")]) }

/-- An upstream response `401`. -/
def expiredResponse : UpstreamResponse :=
  { status := 401, statusText := "Unauthorized", contentType := some "application/json",
    bytes := utf8Encode "\x7b\"error\":\"token expired\"\x7d",
    json := .ok (JsValue.obj [("error", JsValue.str "token expired")]) }

/-- A network for examples in which the MCP upstream accepts only the bearer
token "fresh-token" and the token endpoint hands out that token. -/
def expiringNet : Net := fun _ c =>
  if c.url == CLICKUP_TOKEN_URL then .ok refreshedResponse
  else if c.headers.lookup "Authorization" == some "Bearer fresh-token" then .ok okResponse
  else .ok expiredResponse

/-- A token endpoint response `200` whose JSON body has `access_token`
"fresh-token-2". -/
def rotatedResponse : UpstreamResponse :=
  { status := 200, statusText := "OK", contentType := some "application/json",
    bytes := utf8Encode "\x7b\"access_token\":\"fresh-token-2\"\x7d",
    json := .ok (JsValue.obj [("access_token", JsValue.str "fresh-token-2")]) }

/-- An example concurrent execution of two invocations: both forward, both
are answered 401, both refresh while the other refresh is in flight, both
retry. -/
def raceEvents : List Event :=
  [.issue 0, .issue 1,
   .deliver 0 (.ok expiredResponse), .deliver 1 (.ok expiredResponse),
   .issue 0, .issue 1,
   .deliver 0 (.ok refreshedResponse), .deliver 1 (.ok rotatedResponse),
   .issue 0, .issue 1,
   .deliver 0 (.ok okResponse), .deliver 1 (.ok okResponse)]

/-- The pool the example concurrent execution ends in. -/
def raceFinal : Pool :=
  { tasks := [.ready (.done (.ok (forwarded okResponse))),
              .ready (.done (.ok (forwarded okResponse)))],
    sent := [(0, mcpCall sampleRequest "stale-token"), (1, mcpCall sampleRequest "stale-token"),
             (0, refreshCall sampleEnv), (1, refreshCall sampleEnv),
             (0, mcpCall sampleRequest "fresh-token"),
             (1, mcpCall sampleRequest "fresh-token-2")] }

end Worker

namespace OAuthSetup
open Js

/-- The constant `CLIENT_ID` of the setup script. -/
def CLIENT_ID : String := "YOUR_CLICKUP_CLIENT_ID"
/-- The constant `CLIENT_SECRET` of the setup script. -/
def CLIENT_SECRET : String := "YOUR_CLICKUP_CLIENT_SECRET"

/-- The outbound call of `exchangeCodeForTokens`. -/
def exchangeCall (code verifier : String) : Call :=
  { url := "https://app.clickup.com/api/v2/oauth/token",
    method := "POST",
    headers := [("Content-Type", "application/json")],
    body := Body.json
      [("client_id", JsValue.str CLIENT_ID),
       ("client_secret", JsValue.str CLIENT_SECRET),
       ("code", JsValue.str code),
       ("code_verifier", JsValue.str verifier)] }

/-- The function `exchangeCodeForTokens(code, verifier)` of the setup script:
it resolves with the parsed body, or rejects with an error, given by its
`message`. -/
def exchangeCodeForTokens (code verifier : String) : Prog (Except String JsValue) :=
  Prog.call (exchangeCall code verifier) fun answer =>
    match answer with
    | .error message => Prog.done (.error message)
    | .ok response =>
      if !response.ok then
        Prog.done (.error ("Token exchange failed: " ++ response.text))
      else
        match response.json with
        | .error message => Prog.done (.error message)
        | .ok data => Prog.done (.ok data)

end OAuthSetup

/-! ## Theorems -/

namespace Js

theorem Char.toNat_valid (c : Char) :
    c.toNat < 0xD800 ∨ (0xDFFF < c.toNat ∧ c.toNat < 0x110000) := by
  have h := c.valid
  simp only [UInt32.isValidChar, Nat.isValidChar] at h
  exact h

theorem utf8DecodeFrom_initial_cons (b : Nat) (rest : List Nat) :
    utf8DecodeFrom Utf8State.initial (b :: rest) =
      match utf8Lead b with
      | .emit c => c :: utf8DecodeFrom Utf8State.initial rest
      | .more s1 => utf8DecodeFrom s1 rest
      | .invalid => replacementChar :: utf8DecodeFrom Utf8State.initial rest := by
  rw [utf8DecodeFrom]
  simp [Utf8State.initial]

theorem utf8DecodeFrom_last (s : Utf8State) (b : Nat) (rest : List Nat)
    (hn : s.bytesNeeded ≠ 0) (hl : s.lower ≤ b) (hu : b ≤ s.upper)
    (hs : s.bytesSeen + 1 = s.bytesNeeded) :
    utf8DecodeFrom s (b :: rest)
      = Char.ofNat (s.codePoint * 64 + b % 64) :: utf8DecodeFrom Utf8State.initial rest := by
  rw [utf8DecodeFrom, if_pos ⟨hn, hl, hu⟩, if_pos hs]

theorem utf8DecodeFrom_more (s : Utf8State) (b : Nat) (rest : List Nat)
    (hn : s.bytesNeeded ≠ 0) (hl : s.lower ≤ b) (hu : b ≤ s.upper)
    (hs : s.bytesSeen + 1 ≠ s.bytesNeeded) :
    utf8DecodeFrom s (b :: rest)
      = utf8DecodeFrom
          { codePoint := s.codePoint * 64 + b % 64, bytesSeen := s.bytesSeen + 1,
            bytesNeeded := s.bytesNeeded, lower := 0x80, upper := 0xBF } rest := by
  rw [utf8DecodeFrom, if_pos ⟨hn, hl, hu⟩, if_neg hs]

/-- Decoding the encoding of a scalar value gives it back and leaves the
decoder between two scalar values. -/
theorem utf8DecodeFrom_encodeChar (c : Char) (rest : List Nat) :
    utf8DecodeFrom Utf8State.initial (utf8EncodeChar c ++ rest)
      = c :: utf8DecodeFrom Utf8State.initial rest := by
  have hv := Char.toNat_valid c
  have hc : Char.ofNat c.toNat = c := Char.ofNat_toNat c
  generalize hn : c.toNat = n at hv hc
  unfold utf8EncodeChar
  rw [hn]
  by_cases h1 : n < 0x80
  · rw [if_pos h1]
    have hl : utf8Lead n = .emit (Char.ofNat n) := by
      unfold utf8Lead; rw [if_pos (by omega)]
    rw [List.singleton_append, utf8DecodeFrom_initial_cons, hl, hc]
  rw [if_neg h1]
  by_cases h2 : n < 0x800
  · rw [if_pos h2]
    have hl : utf8Lead (0xC0 + n / 64) = .more
        { codePoint := n / 64, bytesSeen := 0, bytesNeeded := 1, lower := 0x80, upper := 0xBF } := by
      unfold utf8Lead
      rw [if_neg (by omega), if_pos (by omega)]
      congr 2
      omega
    have hcp : n / 64 * 64 + (0x80 + n % 64) % 64 = n := by omega
    rw [List.cons_append, List.singleton_append, utf8DecodeFrom_initial_cons, hl]
    simp only
    rw [utf8DecodeFrom_last _ _ _ (by simp) (by simp) (by simp; omega) (by simp)]
    simp only
    rw [hcp, hc]
  rw [if_neg h2]
  by_cases h3 : n < 0x10000
  · rw [if_pos h3]
    have hl : utf8Lead (0xE0 + n / 4096) = .more
        { codePoint := n / 4096, bytesSeen := 0, bytesNeeded := 2,
          lower := if 0xE0 + n / 4096 = 0xE0 then 0xA0 else 0x80,
          upper := if 0xE0 + n / 4096 = 0xED then 0x9F else 0xBF } := by
      unfold utf8Lead
      rw [if_neg (by omega), if_neg (by omega), if_pos (by omega)]
      congr 2
      omega
    have hcp : (n / 4096 * 64 + (0x80 + n / 64 % 64) % 64) * 64 + (0x80 + n % 64) % 64 = n := by
      omega
    rw [List.cons_append, List.cons_append, List.singleton_append,
      utf8DecodeFrom_initial_cons, hl]
    simp only
    rw [utf8DecodeFrom_more _ _ _ (by simp) (by simp; split <;> omega)
      (by simp; split <;> omega) (by simp)]
    simp only
    rw [utf8DecodeFrom_last _ _ _ (by simp) (by simp) (by simp; omega) (by simp)]
    simp only
    rw [hcp, hc]
  rw [if_neg h3]
  have hl : utf8Lead (0xF0 + n / 262144) = .more
      { codePoint := n / 262144, bytesSeen := 0, bytesNeeded := 3,
        lower := if 0xF0 + n / 262144 = 0xF0 then 0x90 else 0x80,
        upper := if 0xF0 + n / 262144 = 0xF4 then 0x8F else 0xBF } := by
    unfold utf8Lead
    rw [if_neg (by omega), if_neg (by omega), if_neg (by omega), if_pos (by omega)]
    congr 2
    omega
  have hcp : ((n / 262144 * 64 + (0x80 + n / 4096 % 64) % 64) * 64
      + (0x80 + n / 64 % 64) % 64) * 64 + (0x80 + n % 64) % 64 = n := by
    omega
  rw [List.cons_append, List.cons_append, List.cons_append, List.singleton_append,
    utf8DecodeFrom_initial_cons, hl]
  simp only
  rw [utf8DecodeFrom_more _ _ _ (by simp) (by simp; split <;> omega)
    (by simp; split <;> omega) (by simp)]
  simp only
  rw [utf8DecodeFrom_more _ _ _ (by simp) (by simp) (by simp; omega) (by simp)]
  simp only
  rw [utf8DecodeFrom_last _ _ _ (by simp) (by simp) (by simp; omega) (by simp)]
  simp only
  rw [hcp, hc]

theorem utf8DecodeFrom_encodeChars (cs : List Char) :
    utf8DecodeFrom Utf8State.initial (utf8EncodeChars cs) = cs := by
  induction cs with
  | nil => simp [utf8EncodeChars, utf8DecodeFrom, Utf8State.initial]
  | cons c rest ih => rw [utf8EncodeChars, utf8DecodeFrom_encodeChar, ih]

theorem dropBom_of_head_ne (b : Nat) (rest : List Nat) (h : b ≠ 0xEF) :
    dropBom (b :: rest) = b :: rest := by
  match rest with
  | [] => rfl
  | [_] => rfl
  | b2 :: b3 :: more =>
    simp only [dropBom]
    rw [if_neg (fun hh => h hh.1)]

theorem dropBom_encodeChars (cs : List Char) (h : cs.head? ≠ some byteOrderMark) :
    dropBom (utf8EncodeChars cs) = utf8EncodeChars cs := by
  cases cs with
  | nil => rfl
  | cons c rest =>
    have hv := Char.toNat_valid c
    have hc : Char.ofNat c.toNat = c := Char.ofNat_toNat c
    have hne : c.toNat ≠ 0xFEFF := by
      intro hh
      apply h
      rw [List.head?_cons, ← hc, hh]
      rfl
    rw [utf8EncodeChars]
    unfold utf8EncodeChar
    generalize c.toNat = n at hv hne
    by_cases h1 : n < 0x80
    · rw [if_pos h1]
      exact dropBom_of_head_ne _ _ (by omega)
    rw [if_neg h1]
    by_cases h2 : n < 0x800
    · rw [if_pos h2]
      exact dropBom_of_head_ne _ _ (by omega)
    rw [if_neg h2]
    by_cases h3 : n < 0x10000
    · rw [if_pos h3]
      simp only [List.cons_append, List.nil_append, dropBom]
      rw [if_neg (by omega)]
    · rw [if_neg h3]
      exact dropBom_of_head_ne _ _ (by omega)

/-- Text that does not start with a byte order mark survives encoding and
decoding. -/
theorem utf8Decode_encode (text : String) (h : text.data.head? ≠ some byteOrderMark) :
    utf8Decode (utf8Encode text) = text := by
  unfold utf8Decode utf8Encode
  rw [dropBom_encodeChars _ h, utf8DecodeFrom_encodeChars]

end Js

namespace Worker
open Js

theorem fetch_of_proxyRouted (P : Platform) (request : Request) (env : Env)
    (h : proxyRouted request) :
    fetch P request env =
      if (truthyString request.apiKey).isNone ∨ request.apiKey ≠ env.MCP_API_KEY then
        Prog.done (caught (jsonResponse
          [("error", JsValue.str "Unauthorized: Invalid or missing API key")]
          { status := 401, headers := corsHeaders }))
      else
        match truthyString env.CLICKUP_ACCESS_TOKEN with
        | none =>
          Prog.done (caught (jsonResponse
            [("error", JsValue.str "OAuth not configured"),
             ("message", JsValue.str "Visit /oauth/start to configure OAuth tokens")]
            { status := 503, headers := corsHeaders }))
        | some accessToken =>
          Prog.call (mcpCall request accessToken) fun answer =>
            match answer with
            | .error message => Prog.done (internalError message)
            | .ok clickupResponse =>
              if clickupResponse.status = 401 ∧ (truthyString env.CLICKUP_REFRESH_TOKEN).isSome then
                (refreshAccessToken env).bind fun newToken =>
                  if newToken.truthy then
                    Prog.call (mcpCall request newToken.toText) fun retryAnswer =>
                      match retryAnswer with
                      | .error message => Prog.done (internalError message)
                      | .ok retryResponse => Prog.done (proxyResponse retryResponse corsHeaders)
                  else Prog.done (proxyResponse clickupResponse corsHeaders)
              else Prog.done (proxyResponse clickupResponse corsHeaders) := by
  obtain ⟨h1, h2, h3, h4⟩ := h
  unfold fetch
  rw [if_neg h1, if_neg h2, if_neg h3, if_neg h4]

theorem unauthorized_eq :
    caught (jsonResponse
      [("error", JsValue.str "Unauthorized: Invalid or missing API key")]
      { status := 401, headers := corsHeaders }) = .ok unauthorizedResponse := by
  rfl

theorem notConfigured_eq :
    caught (jsonResponse
      [("error", JsValue.str "OAuth not configured"),
       ("message", JsValue.str "Visit /oauth/start to configure OAuth tokens")]
      { status := 503, headers := corsHeaders }) = .ok notConfiguredResponse := by
  rfl

/-- C1: a proxy-routed request whose `X-API-Key` is absent, empty or different
from `MCP_API_KEY` gets the 401 response and no outbound call is made,
whatever the stored tokens and the network. -/
theorem fetch_bad_key_unauthorized (P : Platform) (request : Request) (env : Env) (net : Net)
    (hRoute : proxyRouted request)
    (hKey : request.apiKey = none ∨ request.apiKey = some "" ∨ request.apiKey ≠ env.MCP_API_KEY) :
    (fetch P request env).run net = (.ok unauthorizedResponse, []) ∧
      unauthorizedResponse.status = 401 := by
  refine ⟨?_, rfl⟩
  have hc : (truthyString request.apiKey).isNone ∨ request.apiKey ≠ env.MCP_API_KEY := by
    rcases hKey with h | h | h
    · left; rw [h]; rfl
    · left; rw [h]; rfl
    · right; exact h
  rw [fetch_of_proxyRouted P request env hRoute, if_pos hc, unauthorized_eq]
  rfl

theorem fetch_bad_key_unauthorized_witness :
    proxyRouted wrongKeyRequest ∧ wrongKeyRequest.apiKey ≠ sampleEnv.MCP_API_KEY ∧
      ((fetch plainPlatform wrongKeyRequest sampleEnv).run (constNet okResponse)
          = (.ok unauthorizedResponse, []) ∧
        unauthorizedResponse.status = 401) :=
  ⟨by decide, by decide,
    fetch_bad_key_unauthorized plainPlatform wrongKeyRequest sampleEnv (constNet okResponse)
      (by decide) (Or.inr (Or.inr (by decide)))⟩

/-- C2: a proxy-routed request carrying the configured key, when
`CLICKUP_ACCESS_TOKEN` is absent or empty, gets the 503 response whose JSON
body has `error` = "OAuth not configured", and no outbound call is made. -/
theorem fetch_no_token_unavailable (P : Platform) (request : Request) (env : Env) (net : Net)
    (hRoute : proxyRouted request) (hKey : hasValidKey request env)
    (hToken : env.CLICKUP_ACCESS_TOKEN = none ∨ env.CLICKUP_ACCESS_TOKEN = some "") :
    (fetch P request env).run net = (.ok notConfiguredResponse, []) ∧
      notConfiguredResponse.status = 503 ∧
      notConfiguredResponse.body = Body.json
        [("error", JsValue.str "OAuth not configured"),
         ("message", JsValue.str "Visit /oauth/start to configure OAuth tokens")] := by
  refine ⟨?_, rfl, rfl⟩
  have hc : ¬ ((truthyString request.apiKey).isNone ∨ request.apiKey ≠ env.MCP_API_KEY) := by
    obtain ⟨h1, h2⟩ := hKey
    intro h
    rcases h with h | h
    · cases hk : truthyString request.apiKey <;> simp [hk] at h h1
    · exact h h2
  have ht : truthyString env.CLICKUP_ACCESS_TOKEN = none := by
    rcases hToken with h | h <;> rw [h] <;> rfl
  rw [fetch_of_proxyRouted P request env hRoute, if_neg hc, ht]
  simp only [notConfigured_eq]
  rfl

theorem fetch_no_token_unavailable_witness :
    proxyRouted sampleRequest ∧ hasValidKey sampleRequest envWithoutTokens ∧
      envWithoutTokens.CLICKUP_ACCESS_TOKEN = none ∧
      ((fetch plainPlatform sampleRequest envWithoutTokens).run (constNet okResponse)
          = (.ok notConfiguredResponse, []) ∧
        notConfiguredResponse.status = 503 ∧
        notConfiguredResponse.body = Body.json
          [("error", JsValue.str "OAuth not configured"),
           ("message", JsValue.str "Visit /oauth/start to configure OAuth tokens")]) :=
  ⟨by decide, by decide, rfl,
    fetch_no_token_unavailable plainPlatform sampleRequest envWithoutTokens (constNet okResponse)
      (by decide) (by decide) (Or.inl rfl)⟩

theorem refreshAccessToken_eq (env : Env) :
    refreshAccessToken env =
      Prog.call (refreshCall env) fun answer => Prog.done (refreshedToken answer) := by
  unfold refreshAccessToken
  congr 1
  funext answer
  unfold refreshedToken
  cases answer with
  | error e => rfl
  | ok response =>
    simp only
    split
    · rfl
    · split
      · rfl
      · split <;> rfl

theorem hasValidKey_not_rejected {request : Request} {env : Env} (hKey : hasValidKey request env) :
    ¬ ((truthyString request.apiKey).isNone ∨ request.apiKey ≠ env.MCP_API_KEY) := by
  obtain ⟨h1, h2⟩ := hKey
  intro h
  rcases h with h | h
  · cases hk : truthyString request.apiKey <;> simp [hk] at h h1
  · exact h h2

/-- Symbolic execution of the forwarding branch of `fetch` against a network. -/
theorem run_fetch_forward (P : Platform) (request : Request) (env : Env) (net : Net)
    (tok : String) (hRoute : proxyRouted request) (hKey : hasValidKey request env)
    (hTok : truthyString env.CLICKUP_ACCESS_TOKEN = some tok) :
    (fetch P request env).run net =
      match net [] (mcpCall request tok) with
      | .error message => (internalError message, [mcpCall request tok])
      | .ok r1 =>
        if r1.status = 401 ∧ (truthyString env.CLICKUP_REFRESH_TOKEN).isSome then
          if (refreshedToken (net [mcpCall request tok] (refreshCall env))).truthy then
            match net [mcpCall request tok, refreshCall env]
                (mcpCall request
                  (refreshedToken (net [mcpCall request tok] (refreshCall env))).toText) with
            | .error message =>
              (internalError message,
                [mcpCall request tok, refreshCall env,
                  mcpCall request
                    (refreshedToken (net [mcpCall request tok] (refreshCall env))).toText])
            | .ok r3 =>
              (proxyResponse r3 corsHeaders,
                [mcpCall request tok, refreshCall env,
                  mcpCall request
                    (refreshedToken (net [mcpCall request tok] (refreshCall env))).toText])
          else (proxyResponse r1 corsHeaders, [mcpCall request tok, refreshCall env])
        else (proxyResponse r1 corsHeaders, [mcpCall request tok]) := by
  rw [fetch_of_proxyRouted P request env hRoute, if_neg (hasValidKey_not_rejected hKey), hTok]
  simp only [Prog.run, Prog.runFrom, List.nil_append]
  cases h1 : net [] (mcpCall request tok) with
  | error message => rfl
  | ok r1 =>
    simp only
    by_cases hc : r1.status = 401 ∧ (truthyString env.CLICKUP_REFRESH_TOKEN).isSome
    · rw [if_pos hc, if_pos hc, refreshAccessToken_eq]
      simp only [Prog.bind, Prog.runFrom, List.singleton_append, List.cons_append,
        List.nil_append]
      by_cases ht : (refreshedToken (net [mcpCall request tok] (refreshCall env))).truthy = true
      · rw [if_pos ht, if_pos ht]
        simp only [Prog.runFrom, List.cons_append, List.nil_append]
        cases net [mcpCall request tok, refreshCall env]
          (mcpCall request
            (refreshedToken (net [mcpCall request tok] (refreshCall env))).toText) <;> rfl
      · rw [if_neg ht, if_neg ht]
        rfl
    · rw [if_neg hc, if_neg hc]
      rfl

theorem proxyResponse_of_forwardable (r : UpstreamResponse) (h : forwardable r) :
    proxyResponse r corsHeaders = .ok (forwarded r) := by
  obtain ⟨h1, h2, h3⟩ := h
  unfold proxyResponse newResponse
  have hr : ¬ (r.status < 200 ∨ 599 < r.status) := by omega
  rw [if_neg hr]
  by_cases hn : nullBodyStatus r.status = true
  · have he : (Body.raw r.text).isEmpty = true := by
      rw [h3 hn]; rfl
    simp only [hn, he, Bool.not_true, Bool.and_false, Bool.false_eq_true, if_false]
    rfl
  · simp only [hn, Bool.false_and, Bool.false_eq_true, if_false]
    rfl

/-- Whatever response `proxyResponse` returns is the forwarded one. -/
theorem proxyResponse_eq_forwarded {r : UpstreamResponse} {response : Response}
    (h : proxyResponse r corsHeaders = .ok response) : response = forwarded r := by
  unfold proxyResponse newResponse at h
  split at h
  · cases h
  · split at h
    · cases h
    · cases h; rfl

theorem refreshedToken_of_succeeded {answer : Answer} {newToken : JsValue}
    (h : refreshSucceeded answer newToken) : refreshedToken answer = newToken := by
  obtain ⟨response, data, ha, hok, hjson, hprop, _⟩ := h
  subst ha
  simp [refreshedToken, hok, hjson, hprop]

theorem refreshedToken_truthy {answer : Answer} (h : (refreshedToken answer).truthy = true) :
    refreshSucceeded answer (refreshedToken answer) := by
  unfold refreshedToken at h ⊢
  cases answer with
  | error e => simp [JsValue.truthy] at h
  | ok response =>
    simp only at h ⊢
    by_cases hok : response.ok = true
    · simp only [hok, Bool.not_true, Bool.false_eq_true, if_false] at h ⊢
      cases hj : response.json with
      | error e => simp [hj, JsValue.truthy] at h
      | ok data =>
        simp only [hj] at h ⊢
        cases hp : data.getProp "access_token" with
        | error e => simp [hp, JsValue.truthy] at h
        | ok token =>
          simp only [hp] at h ⊢
          exact ⟨response, data, rfl, hok, hj, hp, h⟩
    · simp [hok, JsValue.truthy] at h

theorem handleOAuthCallback_eq (request : Request) (env : Env) :
    handleOAuthCallback request env =
      match truthyString request.error with
      | some error =>
        Prog.done (newResponse (Body.raw ("❌ Errore OAuth: " ++ error))
          { status := 400, headers := [("Content-Type", "text/plain")] })
      | none =>
        match truthyString request.code with
        | none =>
          Prog.done (newResponse (Body.raw "❌ Authorization code mancante")
            { status := 400, headers := [("Content-Type", "text/plain")] })
        | some code =>
          Prog.call (exchangeCall env code) fun answer => Prog.done (exchangeOutcome answer) := by
  unfold handleOAuthCallback
  cases truthyString request.error with
  | some error => rfl
  | none =>
    cases truthyString request.code with
    | none => rfl
    | some code =>
      simp only
      congr 1
      funext answer
      unfold exchangeOutcome
      cases answer with
      | error e => rfl
      | ok response =>
        simp only
        split
        · rfl
        · split
          · rfl
          · split <;> rfl

theorem tokenUrl_ne_mcpUrl : (CLICKUP_TOKEN_URL == CLICKUP_MCP_URL) = false := by decide

theorem mcpUrl_beq : (CLICKUP_MCP_URL == CLICKUP_MCP_URL) = true := by decide

/-- The calls a run of `handleOAuthCallback` makes: none, or the one exchange
call. -/
theorem handleOAuthCallback_calls (request : Request) (env : Env) (net : Net) :
    ((handleOAuthCallback request env).run net).2 = [] ∨
      ∃ code, ((handleOAuthCallback request env).run net).2 = [exchangeCall env code] := by
  rw [handleOAuthCallback_eq]
  cases truthyString request.error with
  | some error => left; rfl
  | none =>
    cases truthyString request.code with
    | none => left; rfl
    | some code => right; exact ⟨code, rfl⟩

/-- Every run of `fetch` makes at most two calls to the MCP upstream. -/
theorem fetch_mcpCalls_le_two (P : Platform) (request : Request) (env : Env) (net : Net) :
    (mcpCalls ((fetch P request env).run net).2).length ≤ 2 := by
  by_cases h1 : request.method = "OPTIONS"
  · simp [fetch, h1, Prog.run, Prog.runFrom, mcpCalls]
  by_cases h2 : request.pathname = "/oauth/start" ∧ request.method = "GET"
  · simp [fetch, h1, h2, Prog.run, Prog.runFrom, mcpCalls]
  by_cases h3 : request.pathname = "/oauth/callback" ∧ request.method = "GET"
  · have hf : fetch P request env = handleOAuthCallback request env := by
      unfold fetch; rw [if_neg h1, if_neg h2, if_pos h3]
    rw [hf]
    rcases handleOAuthCallback_calls request env net with h | ⟨code, h⟩
    · rw [h]; simp [mcpCalls]
    · rw [h]; simp [mcpCalls, exchangeCall, tokenUrl_ne_mcpUrl]
  by_cases h4 : request.pathname = "/" ∧ request.method = "GET"
  · have hf : fetch P request env = Prog.done (handleHomepage P env) := by
      unfold fetch; rw [if_neg h1, if_neg h2, if_neg h3, if_pos h4]
    rw [hf]; simp [Prog.run, Prog.runFrom, mcpCalls]
  have hRoute : proxyRouted request := ⟨h1, h2, h3, h4⟩
  by_cases hk : (truthyString request.apiKey).isNone ∨ request.apiKey ≠ env.MCP_API_KEY
  · rw [fetch_of_proxyRouted P request env hRoute, if_pos hk]
    simp [Prog.run, Prog.runFrom, mcpCalls]
  cases ht : truthyString env.CLICKUP_ACCESS_TOKEN with
  | none =>
    rw [fetch_of_proxyRouted P request env hRoute, if_neg hk, ht]
    simp [Prog.run, Prog.runFrom, mcpCalls]
  | some tok =>
    have hKey : hasValidKey request env := by
      constructor
      · cases hv : truthyString request.apiKey with
        | none => exact absurd (Or.inl (by simp [hv])) hk
        | some v => rfl
      · by_contra hne; exact hk (Or.inr hne)
    rw [run_fetch_forward P request env net tok hRoute hKey ht]
    split
    · simp [mcpCalls, mcpCall, mcpUrl_beq]
    · split
      · split
        · split <;> simp [mcpCalls, mcpCall, refreshCall, mcpUrl_beq, tokenUrl_ne_mcpUrl]
        · simp [mcpCalls, mcpCall, refreshCall, mcpUrl_beq, tokenUrl_ne_mcpUrl]
      · simp [mcpCalls, mcpCall, mcpUrl_beq]

theorem forwardable_200_or_401 {r : UpstreamResponse} (h : r.status = 200 ∨ r.status = 401) :
    forwardable r := by
  unfold forwardable
  rcases h with h | h <;> rw [h] <;>
    exact ⟨by decide, by decide, fun hn => absurd hn (by decide)⟩

/-- C3 (retry-once invariant): no run of `fetch` makes more than two MCP
upstream calls; and for an authenticated proxy request with a stored access
token and refresh token, when the first forwarded call is answered 401 and the
refresh succeeds, the calls made are exactly the first MCP call, one token
call and one more MCP call, and the response returned is the one built from
the second upstream response, in particular when that is a 200 or again
a 401. -/
theorem fetch_retry_once :
    (∀ (P : Platform) (request : Request) (env : Env) (net : Net),
      (mcpCalls ((fetch P request env).run net).2).length ≤ 2) ∧
    (∀ (P : Platform) (request : Request) (env : Env) (net : Net) (tok : String)
      (newToken : JsValue) (r1 r3 : UpstreamResponse),
      proxyRouted request → hasValidKey request env →
      truthyString env.CLICKUP_ACCESS_TOKEN = some tok →
      (truthyString env.CLICKUP_REFRESH_TOKEN).isSome →
      net [] (mcpCall request tok) = .ok r1 → r1.status = 401 →
      refreshSucceeded (net [mcpCall request tok] (refreshCall env)) newToken →
      net [mcpCall request tok, refreshCall env] (mcpCall request newToken.toText) = .ok r3 →
      ((fetch P request env).run net).2
          = [mcpCall request tok, refreshCall env, mcpCall request newToken.toText] ∧
        (mcpCalls ((fetch P request env).run net).2).length = 2 ∧
        (tokenCalls ((fetch P request env).run net).2).length = 1 ∧
        ((fetch P request env).run net).1 = proxyResponse r3 corsHeaders ∧
        (r3.status = 200 ∨ r3.status = 401 →
          ((fetch P request env).run net).1 = .ok (forwarded r3) ∧
          (forwarded r3).status = r3.status ∧ (forwarded r3).body = Body.raw r3.text)) := by
  refine ⟨fetch_mcpCalls_le_two, ?_⟩
  intro P request env net tok newToken r1 r3 hRoute hKey hTok hRefresh h1 h401 hSucc h3
  have hnew := refreshedToken_of_succeeded hSucc
  have htruthy : newToken.truthy = true := by
    obtain ⟨_, _, _, _, _, _, h⟩ := hSucc; exact h
  have hrun : (fetch P request env).run net =
      (proxyResponse r3 corsHeaders,
        [mcpCall request tok, refreshCall env, mcpCall request newToken.toText]) := by
    rw [run_fetch_forward P request env net tok hRoute hKey hTok, h1]
    simp only [hnew, h401, hRefresh, and_self, if_true, htruthy, h3]
  rw [hrun]
  refine ⟨rfl, ?_, ?_, rfl, ?_⟩
  · simp [mcpCalls, mcpCall, refreshCall, mcpUrl_beq, tokenUrl_ne_mcpUrl]
  · have h1 : (CLICKUP_MCP_URL == CLICKUP_TOKEN_URL) = false := by decide
    have h2 : (CLICKUP_TOKEN_URL == CLICKUP_TOKEN_URL) = true := by decide
    simp [tokenCalls, mcpCall, refreshCall, h1, h2]
  · intro hs
    exact ⟨proxyResponse_of_forwardable r3 (forwardable_200_or_401 hs), rfl, rfl⟩

theorem fetch_retry_once_witness :
    ((fetch plainPlatform sampleRequest sampleEnv).run
        (scriptedNet [.ok expiredResponse, .ok refreshedResponse, .ok expiredResponse])).2
        = [mcpCall sampleRequest "stale-token", refreshCall sampleEnv,
            mcpCall sampleRequest "fresh-token"] ∧
      (mcpCalls ((fetch plainPlatform sampleRequest sampleEnv).run
        (scriptedNet [.ok expiredResponse, .ok refreshedResponse, .ok expiredResponse])).2).length
        = 2 ∧
      (tokenCalls ((fetch plainPlatform sampleRequest sampleEnv).run
        (scriptedNet [.ok expiredResponse, .ok refreshedResponse, .ok expiredResponse])).2).length
        = 1 ∧
      ((fetch plainPlatform sampleRequest sampleEnv).run
        (scriptedNet [.ok expiredResponse, .ok refreshedResponse, .ok expiredResponse])).1
        = proxyResponse expiredResponse corsHeaders ∧
      (expiredResponse.status = 200 ∨ expiredResponse.status = 401 →
        ((fetch plainPlatform sampleRequest sampleEnv).run
          (scriptedNet [.ok expiredResponse, .ok refreshedResponse, .ok expiredResponse])).1
          = .ok (forwarded expiredResponse) ∧
        (forwarded expiredResponse).status = expiredResponse.status ∧
        (forwarded expiredResponse).body = Body.raw expiredResponse.text) :=
  fetch_retry_once.2 plainPlatform sampleRequest sampleEnv
    (scriptedNet [.ok expiredResponse, .ok refreshedResponse, .ok expiredResponse])
    "stale-token" (JsValue.str "fresh-token") expiredResponse expiredResponse
    (by decide) (by decide) rfl rfl rfl rfl
    ⟨refreshedResponse, JsValue.obj [("access_token", JsValue.str "fresh-token")],
      rfl, rfl, rfl, rfl, rfl⟩
    rfl

/-- C4, as stated, fails: an upstream 200 without a `Content-Type` header whose
body is the two bytes `FF 41` is forwarded with `Content-Type:
application/json` and with the four bytes `EF BF BD 41` as its body. -/
theorem passthrough_not_bit_exact :
    proxyRouted sampleRequest ∧ hasValidKey sampleRequest sampleEnv ∧
      bareResponse.status = 200 ∧ bareResponse.contentType = none ∧
      bareResponse.bytes = [0xFF, 0x41] ∧
      (fetch plainPlatform sampleRequest sampleEnv).run (constNet bareResponse)
        = (.ok (forwarded bareResponse), [mcpCall sampleRequest "stale-token"]) ∧
      header (forwarded bareResponse) "Content-Type" = some "application/json" ∧
      (forwarded bareResponse).body.encoded = some [0xEF, 0xBF, 0xBD, 0x41] :=
  ⟨by decide, by decide, rfl, rfl, rfl, rfl, by decide, by decide⟩

/-- An upstream 204, which comes with an empty body, is forwarded as a 204. -/
theorem fetch_null_body_status_forwarded :
    (fetch plainPlatform sampleRequest sampleEnv).run (constNet noContentResponse)
      = (.ok (forwarded noContentResponse), [mcpCall sampleRequest "stale-token"]) ∧
    (forwarded noContentResponse).status = 204 :=
  ⟨rfl, rfl⟩

/-- C4 (amended): for an authenticated proxy request with a stored access
token, when the upstream answers the forwarded call with a status that is not
401, exactly one outbound call is made and the outcome is that of
`proxyResponse` on the upstream response.  A response is returned whenever the
upstream status is in 200..599 and a null-body status comes with an empty
body, and every response returned has the upstream status and status text,
the body text `text()` decodes from the upstream body, sent as its UTF-8
encoding, which is the upstream body byte for byte when that is the UTF-8
encoding of a text without a leading byte order mark, and as headers
`Content-Type` followed by the three CORS headers, where `Content-Type` is the
upstream one when that is present and non-empty and `application/json`
otherwise. -/
theorem fetch_passthrough (P : Platform) (request : Request) (env : Env) (net : Net)
    (tok : String) (r1 : UpstreamResponse)
    (hRoute : proxyRouted request) (hKey : hasValidKey request env)
    (hTok : truthyString env.CLICKUP_ACCESS_TOKEN = some tok)
    (h1 : net [] (mcpCall request tok) = .ok r1)
    (hStatus : r1.status ≠ 401) :
    ((fetch P request env).run net).2 = [mcpCall request tok] ∧
      ((fetch P request env).run net).1 = proxyResponse r1 corsHeaders ∧
      (forwardable r1 → ((fetch P request env).run net).1 = .ok (forwarded r1)) ∧
      (∀ response, ((fetch P request env).run net).1 = .ok response →
        response = forwarded r1) ∧
      (forwarded r1).status = r1.status ∧
      (forwarded r1).statusText = r1.statusText ∧
      (forwarded r1).body = Body.raw r1.text ∧
      (forwarded r1).body.encoded = some (utf8Encode (utf8Decode r1.bytes)) ∧
      (∀ text : String, r1.bytes = utf8Encode text →
        text.data.head? ≠ some byteOrderMark →
        (forwarded r1).body.encoded = some r1.bytes) ∧
      (forwarded r1).headers
        = ("Content-Type", orElse r1.contentType "application/json") :: corsHeaders ∧
      corsHeaders.length = 3 ∧
      (∀ ct, r1.contentType = some ct → ct ≠ "" →
        header (forwarded r1) "Content-Type" = some ct) ∧
      (r1.contentType = none ∨ r1.contentType = some "" →
        header (forwarded r1) "Content-Type" = some "application/json") := by
  have hrun : (fetch P request env).run net
      = (proxyResponse r1 corsHeaders, [mcpCall request tok]) := by
    rw [run_fetch_forward P request env net tok hRoute hKey hTok, h1]
    have hc : ¬ (r1.status = 401 ∧ (truthyString env.CLICKUP_REFRESH_TOKEN).isSome) :=
      fun h => hStatus h.1
    simp only [hc, if_false]
  rw [hrun]
  refine ⟨rfl, rfl, ?_, ?_, rfl, rfl, rfl, rfl, ?_, rfl, rfl, ?_, ?_⟩
  · intro hf
    exact proxyResponse_of_forwardable r1 hf
  · intro response h
    exact proxyResponse_eq_forwarded h
  · intro text hbytes hbom
    show some (utf8Encode (utf8Decode r1.bytes)) = some r1.bytes
    rw [hbytes, utf8Decode_encode text hbom]
  · intro ct hct hne
    simp [header, forwarded, orElse, truthyString, hct, hne, List.lookup]
  · intro h
    rcases h with h | h <;> simp [header, forwarded, orElse, truthyString, h, List.lookup]

theorem fetch_passthrough_witness :
    proxyRouted sampleRequest ∧ hasValidKey sampleRequest sampleEnv ∧
      okResponse.status ≠ 401 ∧ forwardable okResponse ∧
      (fetch plainPlatform sampleRequest sampleEnv).run (constNet okResponse)
        = (.ok (forwarded okResponse), [mcpCall sampleRequest "stale-token"]) ∧
      (forwarded okResponse).body.encoded = some okResponse.bytes ∧
      header (forwarded okResponse) "Content-Type" = some "application/json" :=
  have h := fetch_passthrough plainPlatform sampleRequest sampleEnv (constNet okResponse)
    "stale-token" okResponse (by decide) (by decide) rfl rfl (by decide)
  ⟨by decide, by decide, by decide, by decide,
    Prod.ext (h.2.2.1 (by decide)) h.1,
    h.2.2.2.2.2.2.2.2.1 "\x7b\"result\":\"ok\"\x7d" rfl (by decide),
    h.2.2.2.2.2.2.2.2.2.2.2.1 "application/json" rfl (by decide)⟩

/-- C5: for an authenticated proxy request whose first forwarded call is
answered 401 while a refresh token exists, when the refresh fails (the token
call throws, or is answered with a status outside 200..299) the handler
returns the response built from the original upstream 401 (its status and
body), having made the first MCP call and the token call and no second MCP
call; the failure is not turned into a 500. -/
theorem fetch_refresh_failed (P : Platform) (request : Request) (env : Env) (net : Net)
    (tok : String) (r1 : UpstreamResponse)
    (hRoute : proxyRouted request) (hKey : hasValidKey request env)
    (hTok : truthyString env.CLICKUP_ACCESS_TOKEN = some tok)
    (hRefresh : (truthyString env.CLICKUP_REFRESH_TOKEN).isSome)
    (h1 : net [] (mcpCall request tok) = .ok r1) (h401 : r1.status = 401)
    (hFail : (∃ message, net [mcpCall request tok] (refreshCall env) = .error message) ∨
      (∃ r2, net [mcpCall request tok] (refreshCall env) = .ok r2 ∧ r2.ok = false)) :
    (fetch P request env).run net
        = (.ok (forwarded r1), [mcpCall request tok, refreshCall env]) ∧
      (forwarded r1).status = 401 ∧
      (forwarded r1).body = Body.raw r1.text ∧
      (mcpCalls ((fetch P request env).run net).2).length = 1 ∧
      (tokenCalls ((fetch P request env).run net).2).length = 1 := by
  have hnull : refreshedToken (net [mcpCall request tok] (refreshCall env)) = JsValue.null := by
    rcases hFail with ⟨message, h⟩ | ⟨r2, h, hok⟩
    · rw [h]; rfl
    · rw [h]; simp [refreshedToken, hok]
  have hb : forwardable r1 := forwardable_200_or_401 (Or.inr h401)
  have hrun : (fetch P request env).run net
      = (.ok (forwarded r1), [mcpCall request tok, refreshCall env]) := by
    rw [run_fetch_forward P request env net tok hRoute hKey hTok, h1]
    simp only [h401, hRefresh, and_self, if_true, hnull, JsValue.truthy, Bool.false_eq_true,
      if_false, proxyResponse_of_forwardable r1 hb]
  rw [hrun]
  refine ⟨rfl, h401, rfl, ?_, ?_⟩
  · simp [mcpCalls, mcpCall, refreshCall, mcpUrl_beq, tokenUrl_ne_mcpUrl]
  · have h1 : (CLICKUP_MCP_URL == CLICKUP_TOKEN_URL) = false := by decide
    have h2 : (CLICKUP_TOKEN_URL == CLICKUP_TOKEN_URL) = true := by decide
    simp [tokenCalls, mcpCall, refreshCall, h1, h2]

theorem fetch_refresh_failed_witness :
    proxyRouted sampleRequest ∧ hasValidKey sampleRequest sampleEnv ∧
      expiredResponse.status = 401 ∧ rejectedRefreshResponse.ok = false ∧
      ((fetch plainPlatform sampleRequest sampleEnv).run
          (scriptedNet [.ok expiredResponse, .ok rejectedRefreshResponse])
          = (.ok (forwarded expiredResponse),
              [mcpCall sampleRequest "stale-token", refreshCall sampleEnv]) ∧
        (forwarded expiredResponse).status = 401 ∧
        (forwarded expiredResponse).body = Body.raw expiredResponse.text ∧
        (mcpCalls ((fetch plainPlatform sampleRequest sampleEnv).run
          (scriptedNet [.ok expiredResponse, .ok rejectedRefreshResponse])).2).length = 1 ∧
        (tokenCalls ((fetch plainPlatform sampleRequest sampleEnv).run
          (scriptedNet [.ok expiredResponse, .ok rejectedRefreshResponse])).2).length = 1) :=
  ⟨by decide, by decide, rfl, rfl,
    fetch_refresh_failed plainPlatform sampleRequest sampleEnv
      (scriptedNet [.ok expiredResponse, .ok rejectedRefreshResponse])
      "stale-token" expiredResponse (by decide) (by decide) rfl rfl rfl rfl
      (Or.inr ⟨rejectedRefreshResponse, rfl, rfl⟩)⟩

/-- The runs of `fetch` that make a second MCP call: the request went through
the proxy branch with a valid key and a stored token, the token call that
precedes the second MCP call succeeded, and the three calls are the first MCP
call, the token call and the MCP call with the refreshed token. -/
theorem fetch_retry_inversion (P : Platform) (request : Request) (env : Env) (net : Net)
    (hRetry : 2 ≤ (mcpCalls ((fetch P request env).run net).2).length) :
    ∃ tok newToken, proxyRouted request ∧ hasValidKey request env ∧
      truthyString env.CLICKUP_ACCESS_TOKEN = some tok ∧
      refreshSucceeded (net [mcpCall request tok] (refreshCall env)) newToken ∧
      ((fetch P request env).run net).2
        = [mcpCall request tok, refreshCall env, mcpCall request newToken.toText] := by
  by_cases h1 : request.method = "OPTIONS"
  · simp [fetch, h1, Prog.run, Prog.runFrom, mcpCalls] at hRetry
  by_cases h2 : request.pathname = "/oauth/start" ∧ request.method = "GET"
  · simp [fetch, h1, h2, Prog.run, Prog.runFrom, mcpCalls] at hRetry
  by_cases h3 : request.pathname = "/oauth/callback" ∧ request.method = "GET"
  · have hf : fetch P request env = handleOAuthCallback request env := by
      unfold fetch; rw [if_neg h1, if_neg h2, if_pos h3]
    rw [hf] at hRetry
    rcases handleOAuthCallback_calls request env net with h | ⟨code, h⟩
    · rw [h] at hRetry; simp [mcpCalls] at hRetry
    · rw [h] at hRetry; simp [mcpCalls, exchangeCall, tokenUrl_ne_mcpUrl] at hRetry
  by_cases h4 : request.pathname = "/" ∧ request.method = "GET"
  · have hf : fetch P request env = Prog.done (handleHomepage P env) := by
      unfold fetch; rw [if_neg h1, if_neg h2, if_neg h3, if_pos h4]
    rw [hf] at hRetry; simp [Prog.run, Prog.runFrom, mcpCalls] at hRetry
  have hRoute : proxyRouted request := ⟨h1, h2, h3, h4⟩
  by_cases hk : (truthyString request.apiKey).isNone ∨ request.apiKey ≠ env.MCP_API_KEY
  · rw [fetch_of_proxyRouted P request env hRoute, if_pos hk] at hRetry
    simp [Prog.run, Prog.runFrom, mcpCalls] at hRetry
  cases ht : truthyString env.CLICKUP_ACCESS_TOKEN with
  | none =>
    rw [fetch_of_proxyRouted P request env hRoute, if_neg hk, ht] at hRetry
    simp [Prog.run, Prog.runFrom, mcpCalls] at hRetry
  | some tok =>
    have hKey : hasValidKey request env := by
      constructor
      · cases hv : truthyString request.apiKey with
        | none => exact absurd (Or.inl (by simp [hv])) hk
        | some v => rfl
      · by_contra hne; exact hk (Or.inr hne)
    refine ⟨tok, refreshedToken (net [mcpCall request tok] (refreshCall env)),
      hRoute, hKey, rfl, ?_⟩
    have hrun := run_fetch_forward P request env net tok hRoute hKey ht
    cases hnet : net [] (mcpCall request tok) with
    | error message =>
      rw [hnet] at hrun
      rw [hrun] at hRetry
      simp [mcpCalls, mcpCall, mcpUrl_beq] at hRetry
    | ok r1 =>
      rw [hnet] at hrun
      simp only at hrun
      by_cases hc : r1.status = 401 ∧ (truthyString env.CLICKUP_REFRESH_TOKEN).isSome
      · rw [if_pos hc] at hrun
        by_cases hn : (refreshedToken (net [mcpCall request tok] (refreshCall env))).truthy = true
        · rw [if_pos hn] at hrun
          refine ⟨refreshedToken_truthy hn, ?_⟩
          rw [hrun]
          split <;> rfl
        · rw [if_neg hn] at hrun
          rw [hrun] at hRetry
          simp [mcpCalls, mcpCall, refreshCall, mcpUrl_beq, tokenUrl_ne_mcpUrl] at hRetry
      · rw [if_neg hc] at hrun
        rw [hrun] at hRetry
        simp [mcpCalls, mcpCall, mcpUrl_beq] at hRetry

/-- C6: whenever a run of `fetch` makes a retry (a second MCP call), the calls
made are, in order, the first MCP call, the token call and the retry; the
token call was answered with a successful response whose `access_token` is
`newToken`, and the retry carries `Authorization: Bearer` followed by that
value as a template literal renders it (the string itself when it is a
string), with the method and body of the first call. -/
theorem fetch_retry_uses_refreshed_token (P : Platform) (request : Request) (env : Env)
    (net : Net) (hRetry : 2 ≤ (mcpCalls ((fetch P request env).run net).2).length) :
    ∃ tok newToken first retry,
      truthyString env.CLICKUP_ACCESS_TOKEN = some tok ∧
      first = mcpCall request tok ∧
      ((fetch P request env).run net).2 = [first, refreshCall env, retry] ∧
      refreshSucceeded (net [first] (refreshCall env)) newToken ∧
      retry.url = CLICKUP_MCP_URL ∧
      retry.headers.lookup "Authorization" = some ("Bearer " ++ newToken.toText) ∧
      (∀ t, newToken = JsValue.str t →
        retry.headers.lookup "Authorization" = some ("Bearer " ++ t)) ∧
      retry.method = first.method ∧ retry.body = first.body := by
  obtain ⟨tok, newToken, _, _, hTok, hSucc, hCalls⟩ :=
    fetch_retry_inversion P request env net hRetry
  refine ⟨tok, newToken, mcpCall request tok, mcpCall request newToken.toText,
    hTok, rfl, hCalls, hSucc, rfl, ?_, ?_, rfl, rfl⟩
  · simp [mcpCall, List.lookup]
  · intro t ht
    subst ht
    simp [mcpCall, List.lookup, JsValue.toText]

theorem fetch_retry_uses_refreshed_token_witness :
    2 ≤ (mcpCalls ((fetch plainPlatform sampleRequest sampleEnv).run
        (scriptedNet [.ok expiredResponse, .ok refreshedResponse, .ok okResponse])).2).length ∧
    ∃ tok newToken first retry,
      truthyString sampleEnv.CLICKUP_ACCESS_TOKEN = some tok ∧
      first = mcpCall sampleRequest tok ∧
      ((fetch plainPlatform sampleRequest sampleEnv).run
        (scriptedNet [.ok expiredResponse, .ok refreshedResponse, .ok okResponse])).2
        = [first, refreshCall sampleEnv, retry] ∧
      refreshSucceeded
        (scriptedNet [.ok expiredResponse, .ok refreshedResponse, .ok okResponse] [first]
          (refreshCall sampleEnv)) newToken ∧
      retry.url = CLICKUP_MCP_URL ∧
      retry.headers.lookup "Authorization" = some ("Bearer " ++ newToken.toText) ∧
      (∀ t, newToken = JsValue.str t →
        retry.headers.lookup "Authorization" = some ("Bearer " ++ t)) ∧
      retry.method = first.method ∧ retry.body = first.body :=
  ⟨by decide,
    fetch_retry_uses_refreshed_token plainPlatform sampleRequest sampleEnv
      (scriptedNet [.ok expiredResponse, .ok refreshedResponse, .ok okResponse]) (by decide)⟩

/-- C7 (the code at the failing input): two successive requests against an
upstream that accepts only the refreshed token.  The first request refreshes
and retries with "fresh-token"; the second request again sends "stale-token"
on its first upstream call and has to refresh a second time. -/
theorem serve_next_request_uses_stale_token :
    (serve plainPlatform sampleEnv [sampleRequest, sampleRequest] expiringNet []).2
      = [mcpCall sampleRequest "stale-token", refreshCall sampleEnv,
          mcpCall sampleRequest "fresh-token",
          mcpCall sampleRequest "stale-token", refreshCall sampleEnv,
          mcpCall sampleRequest "fresh-token"] ∧
      (mcpCall sampleRequest "stale-token").headers.lookup "Authorization"
        = some "Bearer stale-token" ∧
      sampleEnv.CLICKUP_ACCESS_TOKEN = some "stale-token" := by
  refine ⟨?_, ?_, rfl⟩
  · rfl
  · decide

theorem hasCors_of_headers {response : Response} {contentType : String}
    (h : response.headers = ("Content-Type", contentType) :: corsHeaders) : hasCors response := by
  unfold hasCors header
  rw [h]
  refine ⟨?_, ?_, ?_⟩ <;> simp [corsHeaders, List.lookup]

theorem newResponse_headers {body : Body} {init : ResponseInit} {response : Response}
    (h : newResponse body init = .ok response) : response.headers = init.headers := by
  unfold newResponse at h
  split at h
  · cases h
  · split at h
    · cases h
    · cases h; rfl

theorem lacksCors_of_single {response : Response} {name value : String}
    (h : response.headers = [(name, value)])
    (hname : name = "Content-Type" ∨ name = "Location") : lacksCors response := by
  unfold lacksCors header
  rw [h]
  rcases hname with h | h <;> subst h <;> refine ⟨?_, ?_, ?_⟩ <;> simp [List.lookup]

theorem proxyResponse_hasCors {r : UpstreamResponse} {response : Response}
    (h : proxyResponse r corsHeaders = .ok response) : hasCors response :=
  hasCors_of_headers (newResponse_headers h)

theorem internalError_hasCors {message : String} {response : Response}
    (h : internalError message = .ok response) : hasCors response := by
  unfold internalError jsonResponse at h
  exact hasCors_of_headers (newResponse_headers h)

/-- Every response of the proxy branch carries the CORS headers. -/
theorem proxy_branch_hasCors (P : Platform) (request : Request) (env : Env) (net : Net)
    (hRoute : proxyRouted request) (response : Response)
    (h : ((fetch P request env).run net).1 = .ok response) : hasCors response := by
  by_cases hk : (truthyString request.apiKey).isNone ∨ request.apiKey ≠ env.MCP_API_KEY
  · rw [fetch_of_proxyRouted P request env hRoute, if_pos hk, unauthorized_eq] at h
    cases h
    exact hasCors_of_headers rfl
  cases ht : truthyString env.CLICKUP_ACCESS_TOKEN with
  | none =>
    rw [fetch_of_proxyRouted P request env hRoute, if_neg hk, ht] at h
    simp only [notConfigured_eq] at h
    cases h
    exact hasCors_of_headers rfl
  | some tok =>
    have hKey : hasValidKey request env := by
      constructor
      · cases hv : truthyString request.apiKey with
        | none => exact absurd (Or.inl (by simp [hv])) hk
        | some v => rfl
      · by_contra hne; exact hk (Or.inr hne)
    rw [run_fetch_forward P request env net tok hRoute hKey ht] at h
    split at h
    · exact internalError_hasCors h
    · split at h
      · split at h
        · split at h
          · exact internalError_hasCors h
          · exact proxyResponse_hasCors h
        · exact proxyResponse_hasCors h
      · exact proxyResponse_hasCors h

theorem handleOAuthStart_lacksCors (P : Platform) (request : Request) (env : Env)
    (response : Response) (h : handleOAuthStart P request env = .ok response) :
    lacksCors response := by
  unfold handleOAuthStart at h
  split at h
  · exact lacksCors_of_single (newResponse_headers h) (Or.inl rfl)
  · exact lacksCors_of_single (newResponse_headers h) (Or.inr rfl)

theorem handleHomepage_lacksCors (P : Platform) (env : Env)
    (response : Response) (h : handleHomepage P env = .ok response) :
    lacksCors response := by
  unfold handleHomepage at h
  simp only at h
  split at h
  · split at h
    · exact lacksCors_of_single (newResponse_headers h) (Or.inl rfl)
    · cases h
  · split at h
    · exact lacksCors_of_single (newResponse_headers h) (Or.inl rfl)
    · cases h

theorem exchangeOutcome_lacksCors (answer : Answer) (response : Response)
    (h : exchangeOutcome answer = .ok response) : lacksCors response := by
  unfold exchangeOutcome at h
  split at h
  · exact lacksCors_of_single (newResponse_headers h) (Or.inl rfl)
  · split at h
    · exact lacksCors_of_single (newResponse_headers h) (Or.inl rfl)
    · split at h
      · exact lacksCors_of_single (newResponse_headers h) (Or.inl rfl)
      · split at h
        · exact lacksCors_of_single (newResponse_headers h) (Or.inl rfl)
        · exact lacksCors_of_single (newResponse_headers h) (Or.inl rfl)

theorem handleOAuthCallback_lacksCors (request : Request) (env : Env) (net : Net)
    (response : Response) (h : ((handleOAuthCallback request env).run net).1 = .ok response) :
    lacksCors response := by
  rw [handleOAuthCallback_eq] at h
  split at h
  · simp only [Prog.run, Prog.runFrom] at h
    exact lacksCors_of_single (newResponse_headers h) (Or.inl rfl)
  · split at h
    · simp only [Prog.run, Prog.runFrom] at h
      exact lacksCors_of_single (newResponse_headers h) (Or.inl rfl)
    · exact exchangeOutcome_lacksCors _ response h

/-- C8, as stated, fails: the response to `GET /oauth/callback?error=access_denied`
is a 400 whose only header is `Content-Type`; it carries no CORS header. -/
theorem callback_response_without_cors :
    (fetch plainPlatform deniedCallbackRequest sampleEnv).run (constNet okResponse)
      = (.ok { status := 400, statusText := "",
               headers := [("Content-Type", "text/plain")],
               body := Body.raw "❌ Errore OAuth: access_denied" }, []) ∧
    header { status := 400, statusText := "",
             headers := [("Content-Type", "text/plain")],
             body := Body.raw "❌ Errore OAuth: access_denied" }
      "Access-Control-Allow-Origin" = none :=
  ⟨rfl, by decide⟩

/-- C8 (amended): a preflight (`OPTIONS`) request is answered at once, before
any key check and without any outbound call, with a 200 whose headers are the
CORS headers; every response of the proxy branch (401, 503, 500 and the
forwarded upstream responses) carries the three CORS headers; the responses to
`GET /`, `GET /oauth/start` and `GET /oauth/callback` carry none of them. -/
theorem fetch_cors (P : Platform) (request : Request) (env : Env) (net : Net) :
    (request.method = "OPTIONS" →
      fetch P request env = Prog.done (.ok preflightResponse) ∧
      (fetch P request env).run net = (.ok preflightResponse, []) ∧
      hasCors preflightResponse) ∧
    (proxyRouted request →
      ∀ response, ((fetch P request env).run net).1 = .ok response → hasCors response) ∧
    (request.method ≠ "OPTIONS" → ¬ proxyRouted request →
      ∀ response, ((fetch P request env).run net).1 = .ok response → lacksCors response) := by
  refine ⟨?_, ?_, ?_⟩
  · intro h
    have hf : fetch P request env = Prog.done (.ok preflightResponse) := by
      unfold fetch; rw [if_pos h]; rfl
    refine ⟨hf, ?_, ?_⟩
    · rw [hf]; rfl
    · unfold hasCors header preflightResponse
      refine ⟨?_, ?_, ?_⟩ <;> simp [corsHeaders, List.lookup]
  · intro hRoute response h
    exact proxy_branch_hasCors P request env net hRoute response h
  · intro h1 hNot response h
    by_cases h2 : request.pathname = "/oauth/start" ∧ request.method = "GET"
    · have hf : fetch P request env = Prog.done (handleOAuthStart P request env) := by
        unfold fetch; rw [if_neg h1, if_pos h2]
      rw [hf] at h
      exact handleOAuthStart_lacksCors P request env response h
    by_cases h3 : request.pathname = "/oauth/callback" ∧ request.method = "GET"
    · have hf : fetch P request env = handleOAuthCallback request env := by
        unfold fetch; rw [if_neg h1, if_neg h2, if_pos h3]
      rw [hf] at h
      exact handleOAuthCallback_lacksCors request env net response h
    by_cases h4 : request.pathname = "/" ∧ request.method = "GET"
    · have hf : fetch P request env = Prog.done (handleHomepage P env) := by
        unfold fetch; rw [if_neg h1, if_neg h2, if_neg h3, if_pos h4]
      rw [hf] at h
      exact handleHomepage_lacksCors P env response h
    exact absurd ⟨h1, h2, h3, h4⟩ hNot

theorem fetch_cors_witness :
    preflightRequest.method = "OPTIONS" ∧ preflightRequest.apiKey = none ∧
      (fetch plainPlatform preflightRequest sampleEnv = Prog.done (.ok preflightResponse) ∧
        (fetch plainPlatform preflightRequest sampleEnv).run (constNet okResponse)
          = (.ok preflightResponse, []) ∧
        hasCors preflightResponse) ∧
      proxyRouted wrongKeyRequest ∧
      (∀ response,
        ((fetch plainPlatform wrongKeyRequest sampleEnv).run (constNet okResponse)).1
          = .ok response → hasCors response) :=
  ⟨rfl, rfl,
    (fetch_cors plainPlatform preflightRequest sampleEnv (constNet okResponse)).1 rfl,
    by decide,
    (fetch_cors plainPlatform wrongKeyRequest sampleEnv (constNet okResponse)).2.1 (by decide)⟩

/-- C9, as stated, fails: when the token endpoint answers 200 with the JSON body
`{}` (no `access_token`), `handleOAuthCallback` returns the 200 "OAuth Success"
page, showing `undefined` as the access token, and `exchangeCodeForTokens`
resolves with the parsed body. -/
theorem exchange_without_access_token_succeeds :
    emptyTokenResponse.ok = true ∧
    emptyTokenResponse.json = .ok (JsValue.obj []) ∧
    (JsValue.obj []).getProp "access_token" = .ok JsValue.undefined ∧
    (handleOAuthCallback callbackRequest sampleEnv).run (constNet emptyTokenResponse)
      = (.ok { status := 200, statusText := "",
               headers := [("Content-Type", "text/html")],
               body := Body.html (Page.oauthSuccess "undefined" none) },
         [exchangeCall sampleEnv "auth-code"]) ∧
    (OAuthSetup.exchangeCodeForTokens "auth-code" "verifier").run (constNet emptyTokenResponse)
      = (.ok (JsValue.obj []), [OAuthSetup.exchangeCall "auth-code" "verifier"]) :=
  ⟨rfl, rfl, rfl, rfl, rfl⟩

/-- C9 (amended): when the token endpoint answers the exchange call with a
status outside 200..299, `handleOAuthCallback` returns a 500 whose text is
"Token exchange failed: " followed by the upstream body, and
`exchangeCodeForTokens` rejects with that message; when it answers with a
status in 200..299 and a JSON body that is not `null`, both report success
whether or not the body has `access_token`: the callback returns the 200 success
page showing the rendered `access_token` (the text `undefined` when absent),
and the helper resolves with the parsed body. -/
theorem exchange_outcomes (request : Request) (env : Env) (net : Net)
    (code verifier : String) (response : UpstreamResponse)
    (hNoError : truthyString request.error = none)
    (hCode : truthyString request.code = some code)
    (hWorker : net [] (exchangeCall env code) = .ok response)
    (hSetup : net [] (OAuthSetup.exchangeCall code verifier) = .ok response) :
    (response.ok = false →
      (handleOAuthCallback request env).run net
        = (.ok { status := 500, statusText := "",
                 headers := [("Content-Type", "text/plain")],
                 body := Body.raw ("❌ Token exchange failed: " ++ response.text) },
           [exchangeCall env code]) ∧
      (OAuthSetup.exchangeCodeForTokens code verifier).run net
        = (.error ("Token exchange failed: " ++ response.text),
           [OAuthSetup.exchangeCall code verifier])) ∧
    (response.ok = true →
      ∀ tokens access refresh, response.json = .ok tokens →
        tokens.getProp "access_token" = .ok access →
        tokens.getProp "refresh_token" = .ok refresh →
        (handleOAuthCallback request env).run net
          = (.ok { status := 200, statusText := "",
                   headers := [("Content-Type", "text/html")],
                   body := Body.html (Page.oauthSuccess access.toText
                     (if refresh.truthy then some refresh.toText else none)) },
             [exchangeCall env code]) ∧
        (OAuthSetup.exchangeCodeForTokens code verifier).run net
          = (.ok tokens, [OAuthSetup.exchangeCall code verifier])) := by
  have hcb : (handleOAuthCallback request env).run net
      = (exchangeOutcome (.ok response), [exchangeCall env code]) := by
    rw [handleOAuthCallback_eq, hNoError, hCode]
    simp only [Prog.run, Prog.runFrom, hWorker, List.nil_append]
  have hsetup : (OAuthSetup.exchangeCodeForTokens code verifier).run net
      = ((if !response.ok then
            (.error ("Token exchange failed: " ++ response.text) : Except String JsValue)
          else
            match response.json with
            | .error message => .error message
            | .ok data => .ok data),
         [OAuthSetup.exchangeCall code verifier]) := by
    simp only [OAuthSetup.exchangeCodeForTokens, Prog.run, Prog.runFrom, hSetup,
      List.nil_append]
    split
    · rfl
    · split <;> rfl
  rw [hcb, hsetup]
  constructor
  · intro hok
    simp only [exchangeOutcome, hok, Bool.not_false, if_true]
    exact ⟨rfl, trivial⟩
  · intro hok tokens access refresh hjson hAccess hRefresh
    simp only [exchangeOutcome, hok, Bool.not_true, Bool.false_eq_true, if_false, hjson,
      successPage, hAccess, hRefresh]
    exact ⟨rfl, trivial⟩

theorem exchange_outcomes_witness :
    emptyTokenResponse.ok = true ∧
      (∀ tokens access refresh, emptyTokenResponse.json = .ok tokens →
        tokens.getProp "access_token" = .ok access →
        tokens.getProp "refresh_token" = .ok refresh →
        (handleOAuthCallback callbackRequest sampleEnv).run (constNet emptyTokenResponse)
          = (.ok { status := 200, statusText := "",
                   headers := [("Content-Type", "text/html")],
                   body := Body.html (Page.oauthSuccess access.toText
                     (if refresh.truthy then some refresh.toText else none)) },
             [exchangeCall sampleEnv "auth-code"]) ∧
        (OAuthSetup.exchangeCodeForTokens "auth-code" "verifier").run
            (constNet emptyTokenResponse)
          = (.ok tokens, [OAuthSetup.exchangeCall "auth-code" "verifier"])) :=
  ⟨rfl,
    (exchange_outcomes callbackRequest sampleEnv (constNet emptyTokenResponse)
      "auth-code" "verifier" emptyTokenResponse rfl rfl rfl rfl).2 rfl⟩

theorem scriptedNet_at (pre : List Answer) (a : Answer) (rest : List Answer)
    (made : List Call) (c : Call) (h : pre.length = made.length) :
    scriptedNet (pre ++ a :: rest) made c = a := by
  unfold scriptedNet
  rw [← h, List.getD_eq_getElem?_getD, List.getElem?_append_right (Nat.le_refl _)]
  simp

/-- An invocation that runs to completion through a sequence of its own events
is the sequential run of its program against the answers delivered to it. -/
theorem Invocation.exec_ready_run (p : Prog Outcome) :
    ∀ (evs : List LocalEvent) (cs : List Call) (o : Outcome) (pre : List Answer)
      (made : List Call), pre.length = made.length →
      Invocation.exec (.ready p) evs = some (.ready (.done o), cs) →
      p.runFrom (scriptedNet (pre ++ evs.filterMap id)) made = (o, made ++ cs) := by
  induction p with
  | done a =>
    intro evs cs o pre made _ h
    cases evs with
    | nil =>
      simp only [Invocation.exec, Option.some.injEq, Prod.mk.injEq, Invocation.ready.injEq,
        Prog.done.injEq] at h
      obtain ⟨h1, h2⟩ := h
      subst h1; subst h2
      simp [Prog.runFrom]
    | cons e rest =>
      cases e <;> simp [Invocation.exec, Invocation.step] at h
  | call c k ih =>
    intro evs cs o pre made hlen h
    cases evs with
    | nil => simp [Invocation.exec] at h
    | cons e rest =>
      cases e with
      | some a => simp [Invocation.exec, Invocation.step] at h
      | none =>
        cases rest with
        | nil => simp [Invocation.exec, Invocation.step] at h
        | cons e2 rest2 =>
          cases e2 with
          | none => simp [Invocation.exec, Invocation.step] at h
          | some a =>
            simp only [Invocation.exec, Invocation.step] at h
            cases hrec : Invocation.exec (.ready (k a)) rest2 with
            | none => simp [hrec] at h
            | some res =>
              obtain ⟨t2, later⟩ := res
              simp only [hrec, Option.some.injEq, Prod.mk.injEq, List.nil_append,
                List.singleton_append] at h
              obtain ⟨h1, h2⟩ := h
              subst h1; subst h2
              have hnet : scriptedNet (pre ++ List.filterMap id (none :: some a :: rest2)) made c
                  = a := by
                simp only [List.filterMap_cons, id]
                exact scriptedNet_at pre a _ made c hlen
              simp only [Prog.runFrom, hnet]
              have := ih a rest2 later o (pre ++ [a]) (made ++ [c])
                (by simp [hlen]) hrec
              simp only [List.filterMap_cons, id, List.append_assoc, List.singleton_append]
                at this ⊢
              exact this

theorem callsOf_append (i : Nat) (sent more : List (Nat × Call)) :
    callsOf i (sent ++ more) = callsOf i sent ++ callsOf i more := by
  simp [callsOf]

theorem callsOf_tagged_same (i : Nat) (issued : List Call) :
    callsOf i (issued.map fun c => (i, c)) = issued := by
  induction issued with
  | nil => rfl
  | cons c rest ih =>
    simp only [callsOf, List.map_cons, List.filter_cons, beq_self_eq_true, if_true] at ih ⊢
    rw [ih]

theorem callsOf_tagged_other (i j : Nat) (h : j ≠ i) (issued : List Call) :
    callsOf i (issued.map fun c => (j, c)) = [] := by
  induction issued with
  | nil => rfl
  | cons c rest ih =>
    have hb : (j == i) = false := by simpa using h
    simp only [callsOf, List.map_cons, List.filter_cons, hb] at ih ⊢
    simpa using ih

/-- A concurrent execution, seen from one invocation, is an execution of that
invocation alone through its own events; the calls tagged with its index are
the calls it issued. -/
theorem Pool.exec_project :
    ∀ (events : List Event) (pool final : Pool), Pool.exec pool events = some final →
      ∀ (i : Nat) (t : Invocation), pool.tasks[i]? = some t →
        ∃ t1 cs, Invocation.exec t (eventsOf i events) = some (t1, cs) ∧
          final.tasks[i]? = some t1 ∧
          callsOf i final.sent = callsOf i pool.sent ++ cs := by
  intro events
  induction events with
  | nil =>
    intro pool final h i t ht
    simp only [Pool.exec, Option.some.injEq] at h
    subst h
    exact ⟨t, [], rfl, ht, by simp⟩
  | cons e rest ih =>
    intro pool final h i t ht
    simp only [Pool.exec] at h
    cases hstep : pool.step e with
    | none => simp [hstep] at h
    | some next =>
      rw [hstep] at h
      simp only at h
      unfold Pool.step at hstep
      cases hget : pool.tasks[e.owner]? with
      | none => simp [hget] at hstep
      | some t0 =>
        rw [hget] at hstep
        simp only at hstep
        cases hs : t0.step e.toLocal with
        | none => simp [hs] at hstep
        | some res =>
          obtain ⟨t1, issued⟩ := res
          rw [hs] at hstep
          simp only [Option.some.injEq] at hstep
          subst hstep
          by_cases hi : e.owner = i
          · have ht0 : t0 = t := by
              rw [hi, ht] at hget
              exact (Option.some.inj hget).symm
            subst ht0
            have hlt : i < pool.tasks.length := by
              rcases List.getElem?_eq_some_iff.mp ht with ⟨hlt, _⟩
              exact hlt
            have hnext : (pool.tasks.set e.owner t1)[i]? = some t1 := by
              rw [hi]
              simp [List.getElem?_set_self, hlt]
            obtain ⟨t2, cs, hexec, hfin, hcalls⟩ := ih _ final h i t1 hnext
            refine ⟨t2, issued ++ cs, ?_, hfin, ?_⟩
            · have hev : eventsOf i (e :: rest) = e.toLocal :: eventsOf i rest := by
                simp [eventsOf, List.filter_cons, hi]
              rw [hev]
              simp only [Invocation.exec, hs, hexec]
            · rw [hcalls, callsOf_append, hi, callsOf_tagged_same, List.append_assoc]
          · have hnext : (pool.tasks.set e.owner t1)[i]? = some t := by
              rw [List.getElem?_set_ne hi]
              exact ht
            obtain ⟨t2, cs, hexec, hfin, hcalls⟩ := ih _ final h i t hnext
            refine ⟨t2, cs, ?_, hfin, ?_⟩
            · have hev : eventsOf i (e :: rest) = eventsOf i rest := by
                have hb : (e.owner == i) = false := by simpa using hi
                simp [eventsOf, List.filter_cons, hb]
              rw [hev]
              exact hexec
            · rw [hcalls, callsOf_append, callsOf_tagged_other i e.owner hi,
                List.append_nil]

/-- A concurrent execution keeps the number of invocations, and every call
issued is tagged with the index of an invocation. -/
theorem Pool.exec_tags :
    ∀ (events : List Event) (pool final : Pool), Pool.exec pool events = some final →
      (∀ entry ∈ pool.sent, entry.1 < pool.tasks.length) →
      final.tasks.length = pool.tasks.length ∧
        ∀ entry ∈ final.sent, entry.1 < pool.tasks.length := by
  intro events
  induction events with
  | nil =>
    intro pool final h hinv
    simp only [Pool.exec, Option.some.injEq] at h
    subst h
    exact ⟨rfl, hinv⟩
  | cons e rest ih =>
    intro pool final h hinv
    simp only [Pool.exec] at h
    cases hstep : pool.step e with
    | none => simp [hstep] at h
    | some next =>
      rw [hstep] at h
      simp only at h
      unfold Pool.step at hstep
      cases hget : pool.tasks[e.owner]? with
      | none => simp [hget] at hstep
      | some t0 =>
        rw [hget] at hstep
        simp only at hstep
        cases hs : t0.step e.toLocal with
        | none => simp [hs] at hstep
        | some res =>
          obtain ⟨t1, issued⟩ := res
          rw [hs] at hstep
          simp only [Option.some.injEq] at hstep
          subst hstep
          have hlt : e.owner < pool.tasks.length := by
            rcases List.getElem?_eq_some_iff.mp hget with ⟨hlt, _⟩
            exact hlt
          have hlen : (pool.tasks.set e.owner t1).length = pool.tasks.length := by simp
          have := ih _ final h (by
            intro entry hmem
            simp only [List.mem_append, List.mem_map] at hmem
            rw [hlen]
            rcases hmem with hmem | ⟨c, _, hc⟩
            · exact hinv entry hmem
            · rw [← hc]; exact hlt)
          simp only [hlen] at this
          exact this

/-- The token calls of a tagged log, counted per invocation. -/
theorem tokenCalls_sum (n : Nat) :
    ∀ (sent : List (Nat × Call)), (∀ entry ∈ sent, entry.1 < n) →
      (tokenCalls (allCalls sent)).length
        = ∑ i in Finset.range n, (tokenCalls (callsOf i sent)).length := by
  intro sent
  induction sent with
  | nil =>
    intro _
    simp [tokenCalls, allCalls, callsOf]
  | cons entry rest ih =>
    intro hinv
    obtain ⟨j, c⟩ := entry
    have hj : j < n := hinv (j, c) (List.mem_cons_self _ _)
    have hrest := ih (fun entry hmem => hinv entry (List.mem_cons_of_mem _ hmem))
    have hterm : ∀ i, (tokenCalls (callsOf i ((j, c) :: rest))).length
        = (if j = i then (if (c.url == CLICKUP_TOKEN_URL) = true then 1 else 0) else 0)
          + (tokenCalls (callsOf i rest)).length := by
      intro i
      by_cases hji : j = i
      · subst hji
        by_cases hc : (c.url == CLICKUP_TOKEN_URL) = true
        · simp [tokenCalls, callsOf, List.filter_cons, hc, Nat.add_comm]
        · simp [tokenCalls, callsOf, List.filter_cons, hc]
      · have hb : (j == i) = false := by simpa using hji
        simp [tokenCalls, callsOf, List.filter_cons, hb, hji]
    have hhead : (tokenCalls (allCalls ((j, c) :: rest))).length
        = (if (c.url == CLICKUP_TOKEN_URL) = true then 1 else 0)
          + (tokenCalls (allCalls rest)).length := by
      by_cases hc : (c.url == CLICKUP_TOKEN_URL) = true
      · simp [tokenCalls, allCalls, List.filter_cons, hc, Nat.add_comm]
      · simp [tokenCalls, allCalls, List.filter_cons, hc]
    rw [hhead, hrest, Finset.sum_congr rfl (fun i _ => hterm i), Finset.sum_add_distrib,
      Finset.sum_ite_eq, if_pos (Finset.mem_range.mpr hj)]

/-- An authenticated proxy request with both tokens stored whose first forwarded
call is answered 401 makes exactly one token call. -/
theorem fetch_expired_token_calls (P : Platform) (request : Request) (env : Env) (net : Net)
    (tok : String) (r1 : UpstreamResponse)
    (hRoute : proxyRouted request) (hKey : hasValidKey request env)
    (hTok : truthyString env.CLICKUP_ACCESS_TOKEN = some tok)
    (hRefresh : (truthyString env.CLICKUP_REFRESH_TOKEN).isSome)
    (h1 : net [] (mcpCall request tok) = .ok r1) (h401 : r1.status = 401) :
    (tokenCalls ((fetch P request env).run net).2).length = 1 := by
  have h1' : (CLICKUP_MCP_URL == CLICKUP_TOKEN_URL) = false := by decide
  have h2' : (CLICKUP_TOKEN_URL == CLICKUP_TOKEN_URL) = true := by decide
  rw [run_fetch_forward P request env net tok hRoute hKey hTok, h1]
  simp only [h401, hRefresh, and_self, if_true]
  split
  · split <;> simp [tokenCalls, mcpCall, refreshCall, h1', h2']
  · simp [tokenCalls, mcpCall, refreshCall, h1', h2']

theorem Invocation.eq_of_finished {t : Invocation} (h : t.finished = true) :
    ∃ o, t = .ready (.done o) := by
  cases t with
  | ready p =>
    cases p with
    | done o => exact ⟨o, rfl⟩
    | call c k => simp [Invocation.finished] at h
  | awaiting c k => simp [Invocation.finished] at h

/-- In a concurrent execution that has completed, what invocation `i` did is
the sequential run of `fetch` on its request against the answers delivered
to it. -/
theorem Pool.exec_invocation_run (P : Platform) (env : Env) (requests : List Request)
    (events : List Event) (final : Pool)
    (hExec : Pool.exec (startPool P env requests) events = some final)
    (hDone : ∀ t ∈ final.tasks, t.finished = true)
    (i : Nat) (request : Request) (hi : requests[i]? = some request) :
    ∃ o, (fetch P request env).run (scriptedNet (answersTo i events))
      = (o, callsOf i final.sent) := by
  have hstart : (startPool P env requests).tasks[i]? = some (.ready (fetch P request env)) := by
    simp [startPool, List.getElem?_map, hi]
  obtain ⟨t1, cs, hexec, hfin, hcalls⟩ :=
    Pool.exec_project events _ final hExec i _ hstart
  have hmem : t1 ∈ final.tasks := List.getElem?_mem hfin
  obtain ⟨o, ho⟩ := Invocation.eq_of_finished (hDone t1 hmem)
  subst ho
  have hrun := Invocation.exec_ready_run (fetch P request env) (eventsOf i events) cs o [] []
    rfl hexec
  refine ⟨o, ?_⟩
  have hc : callsOf i final.sent = cs := by
    rw [hcalls]; simp [startPool, callsOf]
  rw [hc]
  simpa [Prog.run, answersTo] using hrun

/-- C10, as stated, fails: two concurrent invocations that are both answered
401 each issue their own token call (two in total, the second while the
first is in flight), and they retry with the different tokens the two
refreshes returned. -/
theorem concurrent_refresh_not_deduplicated :
    (Pool.exec (startPool plainPlatform sampleEnv [sampleRequest, sampleRequest])
        raceEvents).map (fun final => (allCalls final.sent, final.tasks.map Invocation.finished))
      = some ([mcpCall sampleRequest "stale-token", mcpCall sampleRequest "stale-token",
               refreshCall sampleEnv, refreshCall sampleEnv,
               mcpCall sampleRequest "fresh-token", mcpCall sampleRequest "fresh-token-2"],
              [true, true]) ∧
    (tokenCalls [mcpCall sampleRequest "stale-token", mcpCall sampleRequest "stale-token",
               refreshCall sampleEnv, refreshCall sampleEnv,
               mcpCall sampleRequest "fresh-token",
               mcpCall sampleRequest "fresh-token-2"]).length = 2 :=
  ⟨rfl, by decide⟩

/-- C10 (amended): the worker does not deduplicate refreshes.  In every
completed concurrent execution of `fetch` on N authenticated proxy requests
with an access token and a refresh token stored, in which the first answer
delivered to each invocation is a 401, every invocation issues exactly one
token call of its own, so N token calls are issued in total (one only when
N = 1); and an invocation that retries does so with the `access_token` of the
answer to its own token call. -/
theorem concurrent_refresh_calls (P : Platform) (env : Env) (requests : List Request)
    (events : List Event) (final : Pool)
    (hReq : ∀ request ∈ requests, proxyRouted request ∧ hasValidKey request env)
    (hTok : (truthyString env.CLICKUP_ACCESS_TOKEN).isSome)
    (hRefresh : (truthyString env.CLICKUP_REFRESH_TOKEN).isSome)
    (hExec : Pool.exec (startPool P env requests) events = some final)
    (hDone : ∀ t ∈ final.tasks, t.finished = true)
    (h401 : ∀ i, i < requests.length →
      ∃ r, (answersTo i events).head? = some (.ok r) ∧ r.status = 401) :
    (∀ i, i < requests.length → (tokenCalls (callsOf i final.sent)).length = 1) ∧
    (tokenCalls (allCalls final.sent)).length = requests.length ∧
    (∀ i request, requests[i]? = some request →
      2 ≤ (mcpCalls (callsOf i final.sent)).length →
      ∃ tok newToken answer, (answersTo i events)[1]? = some answer ∧
        refreshSucceeded answer newToken ∧
        callsOf i final.sent
          = [mcpCall request tok, refreshCall env, mcpCall request newToken.toText]) := by
  obtain ⟨tok, hTok⟩ := Option.isSome_iff_exists.mp hTok
  have hone : ∀ i, i < requests.length → (tokenCalls (callsOf i final.sent)).length = 1 := by
    intro i hi
    have hget : requests[i]? = some requests[i] := List.getElem?_eq_getElem hi
    obtain ⟨o, hrun⟩ := Pool.exec_invocation_run P env requests events final hExec hDone
      i requests[i] hget
    obtain ⟨hRoute, hKey⟩ := hReq requests[i] (List.getElem_mem hi)
    obtain ⟨r, hhead, hr⟩ := h401 i hi
    have hnet : scriptedNet (answersTo i events) [] (mcpCall requests[i] tok) = .ok r := by
      cases hans : answersTo i events with
      | nil => simp [hans] at hhead
      | cons a rest =>
        simp only [hans, List.head?_cons, Option.some.injEq] at hhead
        subst hhead
        rfl
    have := fetch_expired_token_calls P requests[i] env (scriptedNet (answersTo i events))
      tok r hRoute hKey hTok hRefresh hnet hr
    rw [hrun] at this
    exact this
  refine ⟨hone, ?_, ?_⟩
  · have htags := Pool.exec_tags events _ final hExec (by simp [startPool])
    have hlen : (startPool P env requests).tasks.length = requests.length := by
      simp [startPool]
    rw [hlen] at htags
    rw [tokenCalls_sum requests.length final.sent htags.2,
      Finset.sum_congr rfl (fun i hi => hone i (Finset.mem_range.mp hi))]
    simp
  · intro i request hget hRetry
    obtain ⟨o, hrun⟩ := Pool.exec_invocation_run P env requests events final hExec hDone
      i request hget
    have hRetry' : 2 ≤ (mcpCalls ((fetch P request env).run
        (scriptedNet (answersTo i events))).2).length := by
      rw [hrun]; exact hRetry
    obtain ⟨tok1, newToken, _, _, _, hSucc, hCalls⟩ :=
      fetch_retry_inversion P request env (scriptedNet (answersTo i events)) hRetry'
    rw [hrun] at hCalls
    refine ⟨tok1, newToken, scriptedNet (answersTo i events) [mcpCall request tok1]
      (refreshCall env), ?_, hSucc, hCalls⟩
    obtain ⟨response, data, hans, _⟩ := hSucc
    unfold scriptedNet at hans ⊢
    simp only [List.length_singleton] at hans ⊢
    cases hg : (answersTo i events)[1]? with
    | none =>
      rw [List.getD_eq_getElem?_getD, hg] at hans
      simp at hans
    | some a =>
      rw [List.getD_eq_getElem?_getD, hg]
      rfl

theorem concurrent_refresh_calls_witness :
    Pool.exec (startPool plainPlatform sampleEnv [sampleRequest, sampleRequest]) raceEvents
        = some raceFinal ∧
      (tokenCalls (allCalls raceFinal.sent)).length = [sampleRequest, sampleRequest].length :=
  ⟨rfl,
    (concurrent_refresh_calls plainPlatform sampleEnv [sampleRequest, sampleRequest]
      raceEvents raceFinal
      (by
        intro request hmem
        simp only [List.mem_cons, List.mem_singleton, List.not_mem_nil, or_false, or_self]
          at hmem
        subst hmem
        exact ⟨by decide, by decide⟩)
      rfl rfl rfl
      (by
        intro t hmem
        simp only [raceFinal, List.mem_cons, List.mem_singleton, List.not_mem_nil, or_false,
          or_self] at hmem
        subst hmem
        rfl)
      (by
        intro i hi
        have hi2 : i < 2 := hi
        interval_cases i
        · exact ⟨expiredResponse, rfl, rfl⟩
        · exact ⟨expiredResponse, rfl, rfl⟩)).2.1⟩

end Worker
